import Mathlib

/-!
Verification development for the bggweb ingestion/reconciliation pipeline.

The definitions below are a shallow embedding of `games/services/bgg_client.py`
and `games/tasks.py`:

* Python dicts become association lists (`List (κ × α)`) queried with `alookup`
  (first match wins; the source's dicts have unique keys).
* Python strings are Lean `String`s; the string operations used by the source
  (`lower`, `strip`, substring tests, `sorted(set(...))`) are re-implemented
  over the character list so that they evaluate inside the kernel.
* Python ints are `Int` (or `Nat` for loop counters and waits that are
  non-negative by construction).
* Python floats that are merely copied around (ratings, weights) are modelled
  as exact rationals `ℚ`.  Percentages, which the source rounds to one decimal
  place (`round(x * 100, 1)`), are modelled by their exact value in tenths of
  a percent, an `Int`, so that the rounding arithmetic stays in `ℤ`/`ℕ` and is
  executable; `round` is modelled as round-half-up (the tie-breaking convention
  is irrelevant to every theorem below because both compared sides use the
  same function).
* Sleeping (`time.sleep`) has no observable effect other than the requested
  duration, so the models record the sequence of requested waits.
* Network traffic is modelled by a *script*: a list of responses consumed in
  order, one per issued request.  Running out of script is reported as a
  distinguished "pending" outcome, which represents a run that is still going
  (it has not returned and has not raised).
* Database tables become a `Store` record: the `Game` and
  `PlayerCountRecommendation` tables are total functions from their unique
  keys (`bgg_id`, and `(bgg_id, count)`) to an optional row, the `Collection`
  and `OwnedGame` tables are lists (usernames, and (username, bgg_id) pairs).
  `created_at`/`updated_at` timestamps and the surrogate integer primary keys
  are not modelled; rows are addressed by their natural keys throughout, which
  is exactly how the source addresses them (`in_bulk(..., field_name="bgg_id")`,
  `unique_together ('game', 'count')`).
-/

namespace Bgg

/-! ### String helpers (kernel-executable models of the Python string ops) -/

/-- Lexicographic comparison of character lists by code point; models Python's
`<=` on `str`, which `sorted` uses. -/
def lexLeB : List Char → List Char → Bool
  | [], _ => true
  | _ :: _, [] => false
  | a :: as, b :: bs =>
    if a.toNat < b.toNat then true
    else if b.toNat < a.toNat then false
    else lexLeB as bs

/-- The order on `String` induced by `lexLeB`. -/
def strLe (a b : String) : Prop := lexLeB a.data b.data = true

instance : DecidableRel strLe :=
  fun a b => inferInstanceAs (Decidable (lexLeB a.data b.data = true))

theorem lexLeB_total (a b : List Char) : lexLeB a b = true ∨ lexLeB b a = true := by
  induction a generalizing b with
  | nil => left; rfl
  | cons x xs ih =>
    cases b with
    | nil => right; rfl
    | cons y ys =>
      simp only [lexLeB]
      rcases Nat.lt_trichotomy x.toNat y.toNat with h | h | h
      · left; simp [h]
      · have h1 : ¬ x.toNat < y.toNat := by omega
        have h2 : ¬ y.toNat < x.toNat := by omega
        rcases ih ys with h3 | h3 <;> simp [h1, h2, h3]
      · right; simp [h, Nat.lt_asymm h]

theorem lexLeB_antisymm (a b : List Char) (hab : lexLeB a b = true)
    (hba : lexLeB b a = true) : a = b := by
  induction a generalizing b with
  | nil => cases b with
    | nil => rfl
    | cons y ys => simp [lexLeB] at hba
  | cons x xs ih =>
    cases b with
    | nil => simp [lexLeB] at hab
    | cons y ys =>
      simp only [lexLeB] at hab hba
      rcases Nat.lt_trichotomy x.toNat y.toNat with h | h | h
      · simp [h, Nat.lt_asymm h] at hba
      · have h1 : ¬ x.toNat < y.toNat := by omega
        have h2 : ¬ y.toNat < x.toNat := by omega
        simp [h1, h2] at hab hba
        have hx : x = y := Char.ext (UInt32.ext h)
        rw [hx, ih ys hab hba]
      · simp [h, Nat.lt_asymm h] at hab

theorem lexLeB_trans (a b c : List Char) (hab : lexLeB a b = true)
    (hbc : lexLeB b c = true) : lexLeB a c = true := by
  induction a generalizing b c with
  | nil => rfl
  | cons x xs ih =>
    cases b with
    | nil => simp [lexLeB] at hab
    | cons y ys =>
      cases c with
      | nil => simp [lexLeB] at hbc
      | cons z zs =>
        simp only [lexLeB] at hab hbc ⊢
        by_cases h1 : x.toNat < y.toNat
        · by_cases h2 : y.toNat < z.toNat
          · have : x.toNat < z.toNat := Nat.lt_trans h1 h2
            simp [this]
          · by_cases h3 : z.toNat < y.toNat
            · simp [h2, h3] at hbc
            · have : x.toNat < z.toNat := by omega
              simp [this]
        · by_cases h4 : y.toNat < x.toNat
          · simp [h1, h4] at hab
          · have hxy : x.toNat = y.toNat := by omega
            simp [h1, h4] at hab
            by_cases h2 : y.toNat < z.toNat
            · have : x.toNat < z.toNat := hxy ▸ h2
              simp [this]
            · by_cases h3 : z.toNat < y.toNat
              · simp [h2, h3] at hbc
              · simp [h2, h3] at hbc
                have h5 : ¬ x.toNat < z.toNat := by omega
                have h6 : ¬ z.toNat < x.toNat := by omega
                simp [h5, h6]
                exact ih ys zs hab hbc

instance : IsTotal String strLe := ⟨fun a b => lexLeB_total a.data b.data⟩

instance : IsTrans String strLe :=
  ⟨fun a b c hab hbc => lexLeB_trans a.data b.data c.data hab hbc⟩

instance : IsAntisymm String strLe := by
  refine ⟨fun a b hab hba => ?_⟩
  cases a; cases b
  exact congrArg String.mk (lexLeB_antisymm _ _ hab hba)

/-- Python `sorted(set(l))`: drop duplicates and sort lexicographically. -/
def sortedDedup (l : List String) : List String := l.dedup.insertionSort strLe

theorem mem_sortedDedup (a : String) (l : List String) :
    a ∈ sortedDedup l ↔ a ∈ l := by
  unfold sortedDedup
  rw [(List.perm_insertionSort strLe l.dedup).mem_iff, List.mem_dedup]

theorem sortedDedup_nil : sortedDedup [] = [] := rfl

/-- `sorted(set(·))` only depends on the set of members. -/
theorem sortedDedup_congr (l₁ l₂ : List String) (h : ∀ a, a ∈ l₁ ↔ a ∈ l₂) :
    sortedDedup l₁ = sortedDedup l₂ := by
  unfold sortedDedup
  have hd : l₁.dedup.Perm l₂.dedup := by
    apply List.perm_of_nodup_nodup_toFinset_eq (List.nodup_dedup l₁) (List.nodup_dedup l₂)
    ext a
    simp [List.mem_dedup, h a]
  have hp : (l₁.dedup.insertionSort strLe).Perm (l₂.dedup.insertionSort strLe) :=
    ((List.perm_insertionSort strLe l₁.dedup).trans hd).trans
      (List.perm_insertionSort strLe l₂.dedup).symm
  exact List.eq_of_perm_of_sorted hp
    (List.sorted_insertionSort strLe l₁.dedup) (List.sorted_insertionSort strLe l₂.dedup)

/-- Model of Python's `str.lower()`. -/
def sLower (s : String) : String := ⟨s.data.map Char.toLower⟩

/-- Model of Python's `str.strip()`. -/
def sTrim (s : String) : String :=
  ⟨((s.data.dropWhile (·.isWhitespace)).reverse.dropWhile (·.isWhitespace)).reverse⟩

/-- Model of Python's `needle in haystack` on strings. -/
def sContains (haystack needle : String) : Bool :=
  decide (needle.data <:+: haystack.data)

/-- Model of Python's `str.startswith`. -/
def sStartsWith (s pat : String) : Bool := pat.data.isPrefixOf s.data

/-- Value of a non-empty all-digit character list, else `none`. -/
def digitsVal (l : List Char) : Option Nat :=
  l.foldl
    (fun acc c =>
      match acc with
      | none => none
      | some n => if c.isDigit then some (n * 10 + (c.toNat - 48)) else none)
    (some 0)

/-- Model of `int(s)` for the decimal numerals the source feeds it (digit
strings, optionally signed); anything else raises `ValueError`, here `none`. -/
def parseIntS (s : String) : Option Int :=
  let t := sTrim s
  match t.data with
  | [] => none
  | '-' :: rest => if rest = [] then none else (digitsVal rest).map (fun n => -(n : Int))
  | '+' :: rest => if rest = [] then none else (digitsVal rest).map (fun n => (n : Int))
  | l => (digitsVal l).map (fun n => (n : Int))

/-- Model of `float(s)` for plain decimal numerals (`"5"`, `"5.25"`, signed);
anything else raises `ValueError`, here `none`. -/
def parseFloatS (s : String) : Option ℚ :=
  let t := sTrim s
  let core := fun (l : List Char) =>
    match l.splitOn '.' with
    | [a] => (digitsVal a).map (fun n => ((n : Nat) : ℚ))
    | [a, b] =>
      match digitsVal a, digitsVal b with
      | some x, some y => some (((x : Nat) : ℚ) + ((y : Nat) : ℚ) / ((10 : ℚ) ^ b.length))
      | _, _ => none
    | _ => none
  match t.data with
  | [] => none
  | '-' :: rest => if rest = [] then none else (core rest).map (fun q => -q)
  | '+' :: rest => if rest = [] then none else core rest
  | l => core l

/-- Model of Python's `str.isdigit()` (on the ASCII digits the rank values use). -/
def sIsDigit (s : String) : Bool := s.data ≠ [] && s.data.all Char.isDigit

/-- First-match association-list lookup; models `dict.get` /
`dict.__getitem__` (the source's dicts have unique keys). -/
def alookup {κ α : Type} [DecidableEq κ] : List (κ × α) → κ → Option α
  | [], _ => none
  | (k, v) :: rest, g => if k = g then some v else alookup rest g

theorem alookup_eq_none_iff {κ α : Type} [DecidableEq κ]
    (m : List (κ × α)) (g : κ) : alookup m g = none ↔ g ∉ m.map Prod.fst := by
  induction m with
  | nil => simp [alookup]
  | cons p rest ih =>
    obtain ⟨k, v⟩ := p
    by_cases h : k = g
    · subst h; simp [alookup]
    · rw [alookup, if_neg h, ih]
      simp only [List.map_cons, List.mem_cons]
      constructor
      · intro hg hor
        rcases hor with h1 | h1
        · exact h h1.symm
        · exact hg h1
      · intro hg h1
        exact hg (Or.inr h1)

theorem alookup_isSome_iff {κ α : Type} [DecidableEq κ]
    (m : List (κ × α)) (g : κ) : (alookup m g).isSome ↔ g ∈ m.map Prod.fst := by
  induction m with
  | nil => simp [alookup]
  | cons p rest ih =>
    obtain ⟨k, v⟩ := p
    by_cases h : k = g
    · subst h; simp [alookup]
    · rw [alookup, if_neg h]
      simp only [List.map_cons, List.mem_cons]
      rw [ih]
      constructor
      · intro h1
        exact Or.inr h1
      · rintro (h1 | h1)
        · exact absurd h1.symm h
        · exact h1

/-! ### `BGGClient._get` (bgg_client.py lines 48-106)

One call of `_get` is modelled as the loop body consuming a script of HTTP
events, one per issued request.  A `HttpEvent.exc` is a transport-level
`requests.RequestException` raised by `session.get`; a `HttpEvent.resp` is a
returned response (status, optional `Retry-After` header, lower-cased body
text).  `resp.raise_for_status()` raises an `HTTPError` — a subclass of
`RequestException` — exactly when the status is ≥ 400, so such statuses fall
into the generic `except` branch unless an earlier branch consumed them. -/

inductive HttpEvent where
  | exc
  | resp (status : Nat) (retryAfter : Option String) (bodyLower : String)
deriving DecidableEq, Repr

structure GetTrace where
  waits : List ℚ
  attempts : Nat
deriving DecidableEq, Repr

inductive GetResult where
  | ok (status : Nat) (tr : GetTrace)
  | rateLimitError (tr : GetTrace)
  | fatalError (tr : GetTrace)
  | rethrow (tr : GetTrace)
  | pending (tr : GetTrace)
deriving DecidableEq, Repr

/-- `max_rate_retries = max(max_retries * 2, 6)`. -/
def maxRateRetries (maxRetries : Nat) : Nat := max (maxRetries * 2) 6

/-- The `while True` loop of `_get`.  `retries` is the generic transient-error
counter, `rateRetries` the consecutive-429 counter; `.pending` means the
script ended with the loop still running. -/
def getRun (maxRetries : Nat) (backoff : ℚ) (fatal : List Nat) :
    List HttpEvent → Nat → Nat → GetTrace → GetResult
  | [], _, _, tr => .pending tr
  | e :: rest, retries, rateRetries, tr =>
    let tr1 : GetTrace := { tr with attempts := tr.attempts + 1 }
    match e with
    | .exc =>
      -- `except requests.RequestException`: retries += 1; rethrow past the cap,
      -- else sleep min(backoff ** retries, 120) and loop.
      let r := retries + 1
      if maxRetries < r then .rethrow tr1
      else getRun maxRetries backoff fatal rest r rateRetries
        { tr1 with waits := tr1.waits ++ [min (backoff ^ r) 120] }
    | .resp status retryAfter bodyLower =>
      if status = 429 then
        -- rate-limit branch: bump only the rate counter, sleep the Retry-After
        -- hint when parseable else min(15 * k, 90), raise once k reaches the cap.
        let k := rateRetries + 1
        let wait : ℚ :=
          match retryAfter.bind parseFloatS with
          | some q => q
          | none => ((min (15 * k) 90 : Nat) : ℚ)
        let tr2 : GetTrace := { tr1 with waits := tr1.waits ++ [wait] }
        if maxRateRetries maxRetries ≤ k then .rateLimitError tr2
        else getRun maxRetries backoff fatal rest retries k tr2
      else
        -- any non-429 response resets the rate counter before anything else
        if status ∈ fatal then .fatalError tr1
        else if status = 400 ∧ sContains bodyLower "cannot load more than" then .ok 400 tr1
        else if 400 ≤ status then
          -- raise_for_status() raises HTTPError ⊆ RequestException
          let r := retries + 1
          if maxRetries < r then .rethrow tr1
          else getRun maxRetries backoff fatal rest r 0
            { tr1 with waits := tr1.waits ++ [min (backoff ^ r) 120] }
        else .ok status tr1

/-! ### `BGGClient.fetch_owned_collection` polling loop (bgg_client.py lines 268-285)

The inner `while True` of one subtype fetch, consuming a script of response
status codes.  On 202 the wait is `min(5 * retries, 30)` and the loop
continues unconditionally; only the non-200/202 branch checks `retries > 50`.
`.pending` means the script ended with the loop still polling. -/

inductive CollPollResult where
  | success (waits : List Nat) (rest : List Nat)
  | failure (waits : List Nat)
  | pending (retries : Nat) (waits : List Nat)
deriving DecidableEq, Repr

def collectionPoll : List Nat → Nat → List Nat → CollPollResult
  | [], retries, waits => .pending retries waits
  | st :: rest, retries, waits =>
    if st = 202 then
      collectionPoll rest (retries + 1) (waits ++ [min (5 * (retries + 1)) 30])
    else if st ≠ 200 then
      if 50 < retries + 1 then .failure waits
      else collectionPoll rest (retries + 1) (waits ++ [5])
    else .success waits rest

/-- The wait sequence produced by `k` consecutive 202 responses starting from
retry counter `r`. -/
def pollWaits202 (r k : Nat) : List Nat :=
  (List.range k).map (fun i => min (5 * (r + i + 1)) 30)

/-! ### `BGGClient.fetch_top_games_ranks` row loop (bgg_client.py lines 128-173) -/

/-- One CSV row of the ranks dump, with the numeric fields pre-parsed the way
the source parses them: `rank` is `none` when `int(row.get('rank') or 0)`
raises (the missing-key case yields `some 0` and is skipped as non-positive);
`average`/`usersrated` are `none` when `to_float`/`to_int` fail. -/
structure RankRow where
  rank : Option Int
  id : String
  name : String
  isExpansion : String
  average : Option ℚ
  usersrated : Option Int
deriving DecidableEq, Repr

/-- The dict built per qualifying row (the `'Owned': 'Not Owned'` and
`Weight`/`Weight Votes` constants are invariant, so only the varying fields
are modelled). -/
structure RankEntry where
  title : String
  gid : String
  type : String
  avgRating : Option ℚ
  voters : Option Int
  bggRank : Int
deriving DecidableEq, Repr

def mkRankEntry (r : RankRow) (rankVal : Int) : RankEntry :=
  { title := r.name
    gid := r.id
    type := if r.isExpansion = "1" ∨ r.isExpansion = "true" ∨ r.isExpansion = "True"
      then "Expansion" else "Base Game"
    avgRating := r.average
    voters := r.usersrated
    bggRank := rankVal }

/-- `m[k] = e`: dict assignment — overwrite in place if the key exists, else
append. -/
def dictInsert {κ α : Type} [DecidableEq κ] (m : List (κ × α)) (k : κ) (e : α) :
    List (κ × α) :=
  if (alookup m k).isSome then m.map (fun p => if p.1 = k then (k, e) else p)
  else m ++ [(k, e)]

/-- The `for row in reader` loop: returns the results dict and the number of
qualifying rows processed.  `break` fires when `processed >= n` *after* the
increment. -/
def fetchTopLoop : List RankRow → Nat → Nat → List (String × RankEntry) →
    List (String × RankEntry) × Nat
  | [], _, processed, acc => (acc, processed)
  | r :: rest, n, processed, acc =>
    match r.rank with
    | none => fetchTopLoop rest n processed acc
    | some rankVal =>
      if rankVal ≤ 0 then fetchTopLoop rest n processed acc
      else if r.id = "" ∨ r.name = "" then fetchTopLoop rest n processed acc
      else
        let acc1 := dictInsert acc r.id (mkRankEntry r rankVal)
        let p1 := processed + 1
        if n ≤ p1 then (acc1, p1) else fetchTopLoop rest n p1 acc1

/-- `fetch_top_games_ranks` over already-decoded CSV rows (download, unzip and
the empty-result error are outside this loop). -/
def fetch_top_games_ranks (rows : List RankRow) (n : Nat) :
    List (String × RankEntry) × Nat :=
  fetchTopLoop rows n 0 []

/-! ### Shared data shapes for the details/reconciler pipeline

`GameInfo` is one entry of a games map (`combined`/`games_map`); its numeric
fields hold the value after `_to_float`/`_to_int` (the source applies those
parsers to the raw dict values at sync time; pre-applying them is transparent
because every code path below applies the identical parser to the identical
value).  `Detail` is one entry of a details map, `PCData` one per-player-count
record.  Percentage fields hold tenths of a percent as an `Int`. -/

structure GameInfo where
  title : Option String
  type : Option String
  avgRating : Option ℚ
  numVoters : Option Int
  bggRank : Option Int
deriving DecidableEq, Repr

structure Detail where
  year : Option String
  weight : Option ℚ
  weightVotes : Option Int
  bggRank : Option Int
  categories : List String
  families : List String
deriving DecidableEq, Repr

structure PCData where
  bestPct : Option Int
  bestVotes : Option Int
  recPct : Option Int
  recVotes : Option Int
  notrecPct : Option Int
  notrecVotes : Option Int
  totalVotes : Option Int
deriving DecidableEq, Repr

/-! ### `BGGClient._iter_details_batches` item parsing (bgg_client.py lines 387-481) -/

/-- A `<rank .../>` element: its `type`, `name` and `value` attributes
(missing attributes modelled as `""`/skipped the way the source's truthiness
checks treat them). -/
structure RankElem where
  type : String
  name : String
  value : String
deriving DecidableEq, Repr

/-- A `<result value="..." numvotes="..."/>` node of the player-count poll. -/
structure PollResultNode where
  value : String
  numvotes : Option String
deriving DecidableEq, Repr

/-- A `<results numplayers="...">` group of the player-count poll. -/
structure PollResults where
  numplayers : Option String
  entries : List PollResultNode
deriving DecidableEq, Repr

/-- One `<item>` of a thing-API response, with just the pieces the parser
reads. -/
structure XmlItem where
  id : String
  yearpublished : Option String
  averageweight : Option String
  numweights : Option String
  ranks : List RankElem
  categoryLinks : List String
  poll : Option (List PollResults)
deriving DecidableEq, Repr

/-- The fixed family-rank name → label lookup table. -/
def familyMap : List (String × String) :=
  [("thematic", "Thematic"), ("strategygames", "Strategy"), ("abstracts", "Abstract"),
   ("childrensgames", "Children\x27s Game"), ("cgs", "Customizable"),
   ("familygames", "Family"), ("partygames", "Party Game"), ("wargames", "Wargame")]

/-- `round(x, 2)` on the weight float. -/
def round2 (q : ℚ) : ℚ := ((round (100 * q) : Int) : ℚ) / 100

def parseYear (yp : Option String) : Option String :=
  match yp with
  | some v => if v = "" then none else some v
  | none => none

def parseWeight (aw : Option String) : Option ℚ :=
  match aw with
  | some v => if v = "" then none else (parseFloatS v).map round2
  | none => none

def parseWeightVotes (nw : Option String) : Option Int :=
  match nw with
  | some v => if v = "" then none else parseIntS v
  | none => none

/-- First `rank` element named `boardgame`; its value when it `isdigit()`. -/
def parseBggRank (ranks : List RankElem) : Option Int :=
  match ranks.find? (fun r => r.name = "boardgame") with
  | some r => if sIsDigit r.value then (digitsVal r.value.data).map (fun n => (n : Int)) else none
  | none => none

def parseCategories (links : List String) : List String := links.filter (· ≠ "")

/-- Family labels from `rank[@type='family']` elements, `list(sorted(set(...)))`. -/
def parseFamilies (ranks : List RankElem) : List String :=
  sortedDedup ((ranks.filter (fun r => r.type = "family")).filterMap
    (fun r => alookup familyMap r.name))

/-- The per-results `Best`/`Recommended`/`Not Recommended` tallies: each label
assignment overwrites, `int(res.get('numvotes') or '0')` with `ValueError → 0`. -/
def tallyVotes (entries : List PollResultNode) : Int × Int × Int :=
  entries.foldl
    (fun acc e =>
      let raw := match e.numvotes with
        | some v => if v = "" then "0" else v
        | none => "0"
      let votes : Int := (parseIntS raw).getD 0
      if e.value = "Best" then (votes, acc.2.1, acc.2.2)
      else if e.value = "Recommended" then (acc.1, votes, acc.2.2)
      else if e.value = "Not Recommended" then (acc.1, acc.2.1, votes)
      else acc)
    (0, 0, 0)

/-- Round-half-up of `part / total * 100` to one decimal, as tenths:
`⌊(1000·part)/total + 1/2⌋ = ⌊(2000·part + total)/(2·total)⌋`. -/
def pctTenths (part total : Int) : Int := Int.fdiv (2000 * part + total) (2 * total)

/-- The `pc_map[numplayers]` record built from one `<results>` group. -/
def mkPollEntry (entries : List PollResultNode) : PCData :=
  let t := tallyVotes entries
  let best := t.1
  let recommended := t.2.1
  let notRecommended := t.2.2
  let total := best + recommended + notRecommended
  { bestPct := some (if total = 0 then 0 else pctTenths best total)
    bestVotes := some best
    recPct := some (if total = 0 then 0 else pctTenths recommended total)
    recVotes := some recommended
    notrecPct := some (if total = 0 then 0 else pctTenths notRecommended total)
    notrecVotes := some notRecommended
    totalVotes := some total }

/-- The suggested-player-count poll → per-count map; `"8+"`-style open-ended
rows are skipped. -/
def parsePoll (poll : Option (List PollResults)) : List (String × PCData) :=
  match poll with
  | none => []
  | some rs =>
    rs.foldl
      (fun acc res =>
        let numplayers := res.numplayers.getD ""
        if sContains numplayers "+" then acc
        else dictInsert acc numplayers (mkPollEntry res.entries))
      []

def parseItemDetail (item : XmlItem) : Detail :=
  { year := parseYear item.yearpublished
    weight := parseWeight item.averageweight
    weightVotes := parseWeightVotes item.numweights
    bggRank := parseBggRank item.ranks
    categories := parseCategories item.categoryLinks
    families := parseFamilies item.ranks }

/-- The `for item in items` loop producing `chunk_details` and `chunk_counts`
(items with a falsy `id` are skipped; duplicate ids overwrite). -/
def parseItems (items : List XmlItem) :
    List (String × Detail) × List (String × List (String × PCData)) :=
  items.foldl
    (fun acc item =>
      if item.id = "" then acc
      else
        (dictInsert acc.1 item.id (parseItemDetail item),
         dictInsert acc.2 item.id (parsePoll item.poll)))
    ([], [])

/-! ### `BGGClient._iter_details_batches` chunk loop (bgg_client.py lines 327-491) -/

/-- One thing-API response after `_get` returned: either a body
`ET.fromstring` rejects, or a parsed document with its status, `<item>` list
and optional `<message>` text. -/
inductive ThingResp where
  | malformed (bodyLower : String)
  | xml (status : Nat) (items : List XmlItem) (message : Option String)
deriving DecidableEq, Repr

/-- One `yield chunk, chunk_details, chunk_counts` triple. -/
structure YieldItem where
  chunk : List String
  details : List (String × Detail)
  counts : List (String × List (String × PCData))
deriving DecidableEq, Repr

structure DetailsTrace where
  requests : List (List String)
  queueWaits : List Nat
  yields : List YieldItem
deriving DecidableEq, Repr

inductive DetailsResult where
  | finished (tr : DetailsTrace)
  | stillPreparingError (tr : DetailsTrace)
  | batchSizeError (tr : DetailsTrace)
  | xmlError (tr : DetailsTrace)
  | pending (tr : DetailsTrace)
deriving DecidableEq, Repr

/-- The `while idx < len(ids)` loop.  Each iteration requests
`ids[idx : idx + current_batch]`; a queue-ish message-only response sleeps
`min(5 + queue_retries * 5, 60)`, re-issues the same chunk and raises once
`queue_retries` reaches 12 (the sleep precedes the raise); any other parsed
response resets `queue_retries`, yields the parse, advances `idx` and paces.
`.pending` = script exhausted with the loop still running. -/
def iterDetailsGo (ids : List String) (batchSize maxIds : Nat) :
    List ThingResp → Nat → Nat → Nat → DetailsTrace → DetailsResult
  | script, idx, currentBatch, queueRetries, tr =>
    if ids.length ≤ idx then .finished tr
    else
      match script with
      | [] => .pending tr
      | r :: rest =>
        let chunk := (ids.drop idx).take currentBatch
        let tr1 : DetailsTrace := { tr with requests := tr.requests ++ [chunk] }
        match r with
        | .malformed body =>
          if sContains body "cannot load more than" = true ∧ 1 < chunk.length then
            .batchSizeError tr1
          else .xmlError tr1
        | .xml status items message =>
          let messageText := sTrim (message.getD "")
          let lower := sLower messageText
          let isQueue := status = 202 ∨ sContains lower "try again" = true ∨
            sContains lower "processing" = true ∨ sContains lower "queued" = true
          if items = [] ∧ messageText ≠ "" ∧ isQueue then
            let qr := queueRetries + 1
            let wait := min (5 + qr * 5) 60
            let tr2 : DetailsTrace := { tr1 with queueWaits := tr1.queueWaits ++ [wait] }
            if 12 ≤ qr then .stillPreparingError tr2
            else iterDetailsGo ids batchSize maxIds rest idx currentBatch qr tr2
          else
            let parsed := parseItems items
            let tr2 : DetailsTrace :=
              { tr1 with yields := tr1.yields ++ [⟨chunk, parsed.1, parsed.2⟩] }
            iterDetailsGo ids batchSize maxIds rest (idx + chunk.length)
              (min batchSize maxIds) 0 tr2

/-- `_iter_details_batches(ids, batch_size)` run against a response script.
`max_ids = batch_size; batch_size = max(1, min(batch_size, max_ids))`. -/
def iterDetailsBatches (ids : List String) (batchSize : Nat) (script : List ThingResp) :
    DetailsResult :=
  let maxIds := batchSize
  let bs := max 1 (min batchSize maxIds)
  iterDetailsGo ids bs maxIds script 0 bs 0 ⟨[], [], []⟩

/-! ### The persistent store (games/models.py)

`games` is the `Game` table keyed by `bgg_id`, `recs` the
`PlayerCountRecommendation` table keyed by `(bgg_id, count)` (its
`unique_together`), `colls` the `Collection` usernames, `links` the
`OwnedGame` junction rows as (username, bgg_id) pairs.  `owned_by` is the
JSON list-of-usernames field the sync code reads and writes alongside
`owned`. -/

structure GameRow where
  title : String
  type : String
  year : Option String
  avgRating : Option ℚ
  numVoters : Option Int
  weight : Option ℚ
  weightVotes : Option Int
  bggRank : Option Int
  owned : Bool
  ownedBy : List String
  categories : List String
  families : List String
deriving DecidableEq, Repr

structure RecRow where
  bestPct : Int
  bestVotes : Int
  recPct : Int
  recVotes : Int
  notrecPct : Int
  notrecVotes : Int
  voteCount : Int
deriving DecidableEq, Repr

structure Store where
  games : String → Option GameRow
  recs : String → Int → Option RecRow
  colls : List String
  links : List (String × String)

/-! ### Reconciler helpers (games/tasks.py lines 22-54, 402-420) -/

/-- `_normalize_type`: `"Expansion" if str(raw or "Base Game").lower().startswith("exp")
else "Base Game"`. -/
def normalizeType (raw : Option String) : String :=
  match raw with
  | none => "Base Game"
  | some s =>
    if s = "" then "Base Game"
    else if sStartsWith (sLower s) "exp" then "Expansion" else "Base Game"

/-- `_to_int(v) or 0` / `_to_float(v) or 0.0` on an already-parsed optional:
`none` and `0` both collapse to `0`. -/
def orZeroI (x : Option Int) : Int := x.getD 0

/-- The seven value fields written into a `PlayerCountRecommendation` row
(games/tasks.py lines 250-283 and 570-603 write the identical fields). -/
def mkRecRow (d : PCData) : RecRow :=
  { bestPct := orZeroI d.bestPct
    bestVotes := orZeroI d.bestVotes
    recPct := orZeroI d.recPct
    recVotes := orZeroI d.recVotes
    notrecPct := orZeroI d.notrecPct
    notrecVotes := orZeroI d.notrecVotes
    voteCount := orZeroI d.totalVotes }

/-- The normalisation both `_sync_catalog` (lines 72-77) and
`_build_owners_lookup` (lines 402-411) apply to a collection-owned map: drop
falsy usernames, drop falsy ids, treat each id list as a set. -/
def normalizeCom (com : List (String × List String)) : List (String × List String) :=
  com.filterMap (fun p =>
    if p.1 = "" then none else some (p.1, (p.2.filter (· ≠ "")).dedup))

/-- `sorted(owners_input_by_gid.get(gid, set()))` = the sorted set of
usernames whose normalised id set contains `gid` (identical in
`_sync_catalog` and via `_build_owners_lookup` in `_sync_refresh_chunk`). -/
def ownersLookup (com : List (String × List String)) (g : String) : List String :=
  sortedDedup (((normalizeCom com).filter (fun p => decide (g ∈ p.2))).map Prod.fst)

/-- `sorted(set(owners_by_game_actual.get(gid, [])))` over the live
`OwnedGame` rows (games/tasks.py lines 338-349). -/
def ownersOfLinks (links : List (String × String)) (g : String) : List String :=
  sortedDedup ((links.filter (fun p => decide (p.2 = g))).map Prod.fst)

/-- The variant in `_purge_untracked_collections` (line 386), which also
skips empty usernames. -/
def ownersOfLinksNE (links : List (String × String)) (g : String) : List String :=
  sortedDedup ((links.filter (fun p => decide (p.2 = g ∧ p.1 ≠ ""))).map Prod.fst)

/-- Delete every `Game` whose `bgg_id` is outside `desired`, cascading to its
recommendation rows and ownership links (`on_delete=CASCADE`). -/
def pruneOutside (desired : List String) (s : Store) : Store :=
  { games := fun g => if g ∈ desired then s.games g else none
    recs := fun g c => if g ∈ desired then s.recs g c else none
    colls := s.colls
    links := s.links.filter (fun p => decide (p.2 ∈ desired)) }

def emptyDetail : Detail := ⟨none, none, none, none, [], []⟩

def emptyInfo : GameInfo := ⟨none, none, none, none, none⟩

/-- `info.get("Game Title") or fallback` (falsy title keeps the fallback). -/
def titleOr (t : Option String) (fallback : String) : String :=
  match t with
  | some v => if v = "" then fallback else v
  | none => fallback

/-! ### `_sync_catalog` (games/tasks.py lines 57-360)

The progress-reporting machinery (`report_units`, `progress_callback`)
observes the sync without changing any table, so it is not modelled.  The
`str(k)` key normalisations are the identity on `String` keys.  Bulk writes
land each computed row at its unique key, so each loop is modelled pointwise
at its key; the conditional ownership write on line 351 only skips a no-op
write (plus an `updated_at` bump, which is outside the model), so it is
modelled as the unconditional write of the same values. -/

/-- Lines 154-165: the field updates applied to an existing `Game` row by the
full sync (`owned`/`owned_by` untouched here; step 6 recomputes them). -/
def fullUpdateRow (info : GameInfo) (detail : Detail) (old : GameRow) : GameRow :=
  { old with
    title := titleOr info.title old.title
    type := normalizeType info.type
    year := detail.year
    avgRating := info.avgRating
    numVoters := info.numVoters
    weight := detail.weight
    weightVotes := detail.weightVotes
    bggRank := detail.bggRank }

/-- Lines 167-183: the `Game` row created by the full sync. -/
def fullCreateRow (info : GameInfo) (detail : Detail) (owners : List String) : GameRow :=
  { title := titleOr info.title ""
    type := normalizeType info.type
    year := detail.year
    avgRating := info.avgRating
    numVoters := info.numVoters
    weight := detail.weight
    weightVotes := detail.weightVotes
    bggRank := detail.bggRank
    owned := !owners.isEmpty
    ownedBy := owners
    categories := []
    families := [] }

/-- Step 2 (lines 137-204): per-id upsert of the `Game` row.  A missing
details entry behaves as `{}` (`details_map.get(gid, {})`), so `year`,
`weight`, `weight_votes`, `bgg_rank` are overwritten with `None` in that
case; `owned`/`owned_by` are written only on create. -/
def upsertGamesFull (gamesMap : List (String × GameInfo))
    (detailsMap : List (String × Detail)) (com : List (String × List String))
    (s : Store) : Store :=
  { s with games := fun g =>
      match alookup gamesMap g with
      | none => s.games g
      | some info =>
        match s.games g with
        | some old => some (fullUpdateRow info ((alookup detailsMap g).getD emptyDetail) old)
        | none => some (fullCreateRow info ((alookup detailsMap g).getD emptyDetail)
            (ownersLookup com g)) }

/-- Step 3 (lines 207-231): set each desired item's category/family
associations to exactly the detail's (non-empty) names; a missing detail
clears them.  Association sets are kept in canonical sorted-deduplicated
form. -/
def setRelationsFull (desired : List String) (detailsMap : List (String × Detail))
    (s : Store) : Store :=
  { s with games := fun g =>
      if g ∈ desired then
        match s.games g with
        | some row =>
          let detail := (alookup detailsMap g).getD emptyDetail
          some { row with
            categories := sortedDedup (detail.categories.filter (· ≠ ""))
            families := sortedDedup (detail.families.filter (· ≠ "")) }
        | none => none
      else s.games g }

/-- Step 4 (lines 233-306): full replace-by-count of the recommendation rows
of every desired id whose game exists (update in place / create / delete
unseen counts all land on the `(gid, count)` key).  Count keys are modelled
already `int()`-parsed. -/
def replaceRecsFull (desired : List String)
    (playerCounts : List (String × List (Int × PCData))) (s : Store) : Store :=
  { s with recs := fun g c =>
      if g ∈ desired ∧ (s.games g).isSome then
        match alookup ((alookup playerCounts g).getD []) c with
        | some d => some (mkRecRow d)
        | none => none
      else s.recs g c }

/-- Step 5, one username (lines 311-329): ensure the `Collection` row, create
links for target ids whose game exists, delete this collection's links whose
id fell out of the target set. -/
def reconcileCollection (u : String) (target : List String) (s : Store) : Store :=
  let created := (target.filter
      (fun g => decide ((s.games g).isSome ∧ (u, g) ∉ s.links))).map
    (fun g => (u, g))
  { s with
    colls := if u ∈ s.colls then s.colls else s.colls ++ [u]
    links := s.links.filter (fun p => decide (¬(p.1 = u ∧ p.2 ∉ target))) ++ created }

/-- Step 5 (lines 310-330): the per-username loop over the normalised
collection-owned map. -/
def reconcileCollectionsFull (com : List (String × List String)) (s : Store) : Store :=
  (normalizeCom com).foldl (fun st p => reconcileCollection p.1 p.2 st) s

/-- Step 6 (lines 332-357): recompute `owned`/`owned_by` for every relevant id
(desired ids plus every id appearing in the owners input) from the live
`OwnedGame` rows. -/
def recomputeOwnedFull (desired : List String) (com : List (String × List String))
    (s : Store) : Store :=
  { s with games := fun g =>
      if g ∈ desired ∨ ownersLookup com g ≠ [] then
        match s.games g with
        | some row =>
          let owners := ownersOfLinks s.links g
          some { row with owned := !owners.isEmpty, ownedBy := owners }
        | none => none
      else s.games g }

/-- `_sync_catalog(games_map, details_map, player_counts,
collection_owned_map=com, prune=prune)`. -/
def sync_catalog (gamesMap : List (String × GameInfo))
    (detailsMap : List (String × Detail))
    (playerCounts : List (String × List (Int × PCData)))
    (com : List (String × List String)) (prune : Bool) (s : Store) : Store :=
  let desired := gamesMap.map Prod.fst
  let s1 := if prune then pruneOutside desired s else s
  let s2 := upsertGamesFull gamesMap detailsMap com s1
  let s3 := setRelationsFull desired detailsMap s2
  let s4 := replaceRecsFull desired playerCounts s3
  let s5 := reconcileCollectionsFull com s4
  recomputeOwnedFull desired com s5

/-! ### `_sync_refresh_chunk` (games/tasks.py lines 423-650) -/

/-- `bgg_rank = _to_int((detail or {}).get('BGG Rank'))`, with the line-468
fallback to the games-map value when that is `None`. -/
def chunkBggRank (info : GameInfo) (detailOpt : Option Detail) : Option Int :=
  match detailOpt.bind Detail.bggRank with
  | some r => some r
  | none => info.bggRank

/-- Lines 473-491: the field updates applied to an existing `Game` row by one
chunk iteration. -/
def chunkUpdateRow (info : GameInfo) (detailOpt : Option Detail)
    (owners : List String) (old : GameRow) : GameRow :=
  { old with
    title := titleOr info.title old.title
    type := normalizeType info.type
    avgRating := info.avgRating
    numVoters := info.numVoters
    year := if detailOpt.isSome then detailOpt.bind Detail.year else old.year
    weight := if detailOpt.isSome then detailOpt.bind Detail.weight else old.weight
    weightVotes := if detailOpt.isSome then detailOpt.bind Detail.weightVotes
      else old.weightVotes
    bggRank := if detailOpt.isSome ∨ (chunkBggRank info detailOpt).isSome
      then chunkBggRank info detailOpt else old.bggRank
    owned := !owners.isEmpty
    ownedBy := owners }

/-- Lines 492-507: the `Game` row created by one chunk iteration. -/
def chunkCreateRow (info : GameInfo) (detailOpt : Option Detail)
    (owners : List String) : GameRow :=
  { title := titleOr info.title ""
    type := normalizeType info.type
    year := detailOpt.bind Detail.year
    avgRating := info.avgRating
    numVoters := info.numVoters
    weight := detailOpt.bind Detail.weight
    weightVotes := detailOpt.bind Detail.weightVotes
    bggRank := chunkBggRank info detailOpt
    owned := !owners.isEmpty
    ownedBy := owners
    categories := []
    families := [] }

/-- Lines 446-516: per-id upsert.  Unlike the full sync, `year`, `weight`,
`weight_votes` are written only when a detail is present, `bgg_rank` falls
back to the games-map value, and `owned`/`owned_by` are written from the
owners lookup on update as well as on create. -/
def upsertGamesChunk (ids : List String) (gamesMap : List (String × GameInfo))
    (detailsMap : List (String × Detail)) (com : List (String × List String))
    (s : Store) : Store :=
  { s with games := fun g =>
      if g ∈ ids then
        (match alookup gamesMap g, alookup detailsMap g with
        | none, none => s.games g
        | infoOpt, detailOpt =>
          let info := infoOpt.getD emptyInfo
          let owners := ownersLookup com g
          match s.games g with
          | some old => some (chunkUpdateRow info detailOpt owners old)
          | none => some (chunkCreateRow info detailOpt owners))
      else s.games g }

/-- Lines 520-546: associations are set only for ids with a detail entry. -/
def setRelationsChunk (ids : List String) (detailsMap : List (String × Detail))
    (s : Store) : Store :=
  { s with games := fun g =>
      if g ∈ ids then
        match alookup detailsMap g with
        | none => s.games g
        | some detail =>
          match s.games g with
          | some row =>
            some { row with
              categories := sortedDedup (detail.categories.filter (· ≠ ""))
              families := sortedDedup (detail.families.filter (· ≠ "")) }
          | none => none
      else s.games g }

/-- Lines 548-618: replace-by-count, but only for ids with a detail entry
(`detail_ids`).  Count keys are modelled already parsed; the source's
`try: int(count) except: continue` never fires on them. -/
def replaceRecsChunk (ids : List String) (detailsMap : List (String × Detail))
    (pcounts : List (String × List (Int × PCData))) (s : Store) : Store :=
  { s with recs := fun g c =>
      if g ∈ ids ∧ (alookup detailsMap g).isSome ∧ (s.games g).isSome then
        match alookup ((alookup pcounts g).getD []) c with
        | some d => some (mkRecRow d)
        | none => none
      else s.recs g c }

/-- Lines 620-650: reconcile the `OwnedGame` rows of every chunk id with a
game to exactly the owners-lookup set (ensuring a `Collection` per target
username). -/
def reconcileLinksChunk (ids : List String) (com : List (String × List String))
    (s : Store) : Store :=
  let keep := fun (p : String × String) =>
    decide (¬(p.2 ∈ ids ∧ (s.games p.2).isSome ∧ p.1 ∉ ownersLookup com p.2))
  let created := ids.foldl
    (fun acc g =>
      if (s.games g).isSome then
        acc ++ ((ownersLookup com g).filter (fun u => decide ((u, g) ∉ s.links))).map
          (fun u => (u, g))
      else acc)
    []
  let colls1 := (ids.filter (fun g => decide ((s.games g).isSome))).foldl
    (fun cs g => (ownersLookup com g).foldl
      (fun cs2 u => if u ∈ cs2 then cs2 else cs2 ++ [u]) cs)
    s.colls
  { s with colls := colls1, links := s.links.filter keep ++ created }

/-- `_sync_refresh_chunk(chunk_ids, games_map, details_map, player_counts_map,
owners_lookup, collection_cache)`; the owners lookup is recomputed from the
same collection map the caller built it from. -/
def sync_refresh_chunk (chunkIds : List String) (gamesMap : List (String × GameInfo))
    (detailsMap : List (String × Detail))
    (pcounts : List (String × List (Int × PCData)))
    (com : List (String × List String)) (s : Store) : Store :=
  let ids := chunkIds.filter
    (fun g => decide ((alookup gamesMap g).isSome ∨ (alookup detailsMap g).isSome))
  if ids = [] then s
  else
    let s1 := upsertGamesChunk ids gamesMap detailsMap com s
    let s2 := setRelationsChunk ids detailsMap s1
    let s3 := replaceRecsChunk ids detailsMap pcounts s2
    reconcileLinksChunk ids com s3

/-! ### `_purge_untracked_collections`, `_ensure_collections`,
`_prune_games_after_refresh` (games/tasks.py lines 365-420, 653-658) -/

def purge_untracked_collections (active : List String) (s : Store) : Store :=
  let keep := (active.map sTrim).filter (· ≠ "")
  let purged := s.colls.filter (fun u => decide (u ∉ keep))
  if purged = [] then s
  else
    let affected := (s.links.filter (fun p => decide (p.1 ∈ purged))).map Prod.snd
    let links1 := s.links.filter (fun p => decide (p.1 ∉ purged))
    let colls1 := s.colls.filter (fun u => decide (u ∈ keep))
    if affected = [] then { s with colls := colls1, links := links1 }
    else
      { games := fun g =>
          if g ∈ affected then
            match s.games g with
            | some row =>
              let owners := ownersOfLinksNE links1 g
              some { row with owned := !owners.isEmpty, ownedBy := owners }
            | none => none
          else s.games g
        recs := s.recs
        colls := colls1
        links := links1 }

def ensure_collections (usernames : List String) (s : Store) : Store :=
  let normalized := sortedDedup ((usernames.map sTrim).filter (· ≠ ""))
  { s with colls := normalized.foldl (fun cs u => if u ∈ cs then cs else cs ++ [u]) s.colls }

/-- `_prune_games_after_refresh`: both source branches (`exclude(bgg_id__in=
desired).delete()` and `all().delete()` for an empty desired list) delete
exactly the games outside `desired`, with cascade. -/
def prune_games_after_refresh (desiredIds : List String) (s : Store) : Store :=
  pruneOutside desiredIds s

/-- The chunked pipeline of `run_refresh` (games/tasks.py lines 933-1033) as
claim C3 describes it: ensure the collections, apply `_sync_refresh_chunk`
sequentially to each batch of the candidate id list, then prune ids outside
the candidate set.  Each chunk's details/player-count maps are the
restrictions of the combined maps to the chunk, which the chunk functions
only ever query at their own ids, so the combined maps are passed through. -/
def chunked_refresh (batches : List (List String))
    (gamesMap : List (String × GameInfo)) (detailsMap : List (String × Detail))
    (pcounts : List (String × List (Int × PCData)))
    (com : List (String × List String)) (s : Store) : Store :=
  let s0 := ensure_collections (com.map Prod.fst) s
  let s1 := batches.foldl
    (fun st b => sync_refresh_chunk b gamesMap detailsMap pcounts com st) s0
  prune_games_after_refresh (gamesMap.map Prod.fst) s1

/-! ## Theorems -/

/-! ### C1 — collection-fetch polling (corrected) -/

lemma collectionPoll_202_pending (k r : Nat) (w : List Nat) :
    collectionPoll (List.replicate k 202) r w =
      CollPollResult.pending (r + k) (w ++ pollWaits202 r k) := by
  induction k generalizing r w with
  | zero => simp [collectionPoll, pollWaits202]
  | succ k ih =>
    rw [List.replicate_succ]
    show collectionPoll (202 :: List.replicate k 202) r w = _
    rw [collectionPoll]
    simp only [if_pos rfl]
    rw [ih]
    have h1 : r + 1 + k = r + (k + 1) := by omega
    have h2 : (w ++ [min (5 * (r + 1)) 30]) ++ pollWaits202 (r + 1) k
        = w ++ pollWaits202 r (k + 1) := by
      rw [List.append_assoc]
      congr 1
      show min (5 * (r + 1)) 30 :: pollWaits202 (r + 1) k = pollWaits202 r (k + 1)
      unfold pollWaits202
      rw [List.range_succ_eq_map, List.map_cons, List.map_map]
      congr 1
      apply List.map_congr_left
      intro i _
      simp only [Function.comp_apply]
      congr 1
      omega
    rw [h1, h2]
    simp

lemma collectionPoll_non200_failure (st : Nat) (h202 : st ≠ 202) (h200 : st ≠ 200) :
    ∀ (k ry : Nat) (w : List Nat), ry ≤ 50 → 51 ≤ k + ry →
      collectionPoll (List.replicate k st) ry w =
        CollPollResult.failure (w ++ List.replicate (50 - ry) 5) := by
  intro k
  induction k with
  | zero => intro ry w hry hk; omega
  | succ k ih =>
    intro ry w hry hk
    rw [List.replicate_succ]
    show collectionPoll (st :: List.replicate k st) ry w = _
    rw [collectionPoll]
    rw [if_neg h202, if_pos h200]
    by_cases hcap : 50 < ry + 1
    · rw [if_pos hcap]
      have : ry = 50 := by omega
      subst this
      simp
    · rw [if_neg hcap]
      rw [ih (ry + 1) (w ++ [5]) (by omega) (by omega)]
      rw [List.append_assoc]
      congr 1
      have h1 : 50 - ry = (50 - (ry + 1)) + 1 := by omega
      rw [h1]
      rw [List.replicate_succ]
      rfl

/-- C1 (counterexample): the claim says that when the collection endpoint
repeatedly answers 202 the number of retries is bounded and, past the cap,
the call surfaces a terminal error instead of polling forever.  The only
retry cap in `fetch_owned_collection` is 50, yet after 51 consecutive 202
responses the loop has recorded 51 retries, raised nothing, and is still
polling (the cap check sits only in the non-200/202 branch). -/
theorem c1_counterexample :
    collectionPoll (List.replicate 51 202) 0 [] =
      CollPollResult.pending 51 (pollWaits202 0 51) ∧
    ∀ w, collectionPoll (List.replicate 51 202) 0 [] ≠ CollPollResult.failure w := by
  constructor
  · exact collectionPoll_202_pending 51 0 []
  · intro w h
    rw [collectionPoll_202_pending 51 0 []] at h
    exact CollPollResult.noConfusion h

/-- C1 (amended): on a pure stream of 202 "queued" responses the client polls
with linear backoff `min(5·k, 30)` (capped wait) but *unboundedly* — it never
raises, however many 202s arrive; the bounded-retry terminal error exists
only for non-200/202 statuses: those wait a constant 5s each and the 51st
consecutive such retry raises. -/
theorem c1_collection_poll_backoff :
    (∀ k r w, collectionPoll (List.replicate k 202) r w =
        CollPollResult.pending (r + k) (w ++ pollWaits202 r k)) ∧
    (∀ st, st ≠ 202 → st ≠ 200 → ∀ k, 51 ≤ k →
        collectionPoll (List.replicate k st) 0 [] =
          CollPollResult.failure (List.replicate 50 5)) := by
  constructor
  · exact fun k r w => collectionPoll_202_pending k r w
  · intro st h202 h200 k hk
    have h := collectionPoll_non200_failure st h202 h200 k 0 [] (by omega) (by omega)
    simpa using h

/-- C1 witness: three 202s leave the poll pending with waits 5, 10, 15; fifty
one consecutive 500s raise after fifty 5-second waits. -/
theorem c1_witness :
    collectionPoll (List.replicate 3 202) 0 [] =
      CollPollResult.pending 3 (pollWaits202 0 3) ∧
    collectionPoll (List.replicate 51 500) 0 [] =
      CollPollResult.failure (List.replicate 50 5) :=
  ⟨c1_collection_poll_backoff.1 3 0 [],
   c1_collection_poll_backoff.2 500 (by decide) (by decide) 51 (by decide)⟩

/-! ### C10 — `fetch_top_games_ranks` row processing (corrected) -/

lemma dictInsert_length_le {κ α : Type} [DecidableEq κ]
    (m : List (κ × α)) (k : κ) (e : α) :
    (dictInsert m k e).length ≤ m.length + 1 := by
  unfold dictInsert
  by_cases h : (alookup m k).isSome
  · rw [if_pos h, List.length_map]
    omega
  · rw [if_neg h, List.length_append]
    simp

lemma fetchTopLoop_bounds (rows : List RankRow) (n : Nat) :
    ∀ p acc, p < n → acc.length ≤ p →
      (fetchTopLoop rows n p acc).1.length ≤ n ∧ (fetchTopLoop rows n p acc).2 ≤ n := by
  induction rows with
  | nil =>
    intro p acc hp hacc
    exact ⟨by simpa [fetchTopLoop] using le_of_lt (lt_of_le_of_lt hacc hp),
      by simpa [fetchTopLoop] using le_of_lt hp⟩
  | cons r rest ih =>
    intro p acc hp hacc
    rcases hr : r.rank with _ | rankVal
    · simp only [fetchTopLoop, hr]
      exact ih p acc hp hacc
    · simp only [fetchTopLoop, hr]
      by_cases h1 : rankVal ≤ 0
      · rw [if_pos h1]; exact ih p acc hp hacc
      · rw [if_neg h1]
        by_cases h2 : r.id = "" ∨ r.name = ""
        · rw [if_pos h2]; exact ih p acc hp hacc
        · rw [if_neg h2]
          by_cases h3 : n ≤ p + 1
          · rw [if_pos h3]
            refine ⟨?_, by omega⟩
            calc (dictInsert acc r.id (mkRankEntry r rankVal)).length
                ≤ acc.length + 1 := dictInsert_length_le acc _ _
              _ ≤ p + 1 := by omega
              _ ≤ n := by omega
          · rw [if_neg h3]
            exact ih (p + 1) (dictInsert acc r.id (mkRankEntry r rankVal))
              (by omega) (le_trans (dictInsert_length_le acc _ _) (by omega))

/-- C10 (counterexample): with `n = 0` the loop still processes one
qualifying row (the `processed >= n` break is only checked after the
increment), so the returned map has one entry — more than `n` — refuting "at
most n qualifying rows / at most n entries" as universally stated. -/
theorem c10_counterexample :
    (fetch_top_games_ranks [⟨some 1, "5", "Catan", "0", none, none⟩] 0).2 = 1 ∧
    (fetch_top_games_ranks [⟨some 1, "5", "Catan", "0", none, none⟩] 0).1.length = 1 ∧
    ¬ ((fetch_top_games_ranks [⟨some 1, "5", "Catan", "0", none, none⟩] 0).1.length ≤ 0) := by
  decide

/-- C10 (amended): for every `n ≥ 1` the loop processes at most `n`
qualifying rows and returns a map with at most `n` entries, and a later
qualifying row sharing the id of an earlier one overwrites it in place, so
the map can hold strictly fewer than `n` entries even though `n` qualifying
rows were processed — witnessed by two rank-1/rank-2 rows with the same id
`"5"`, which yield a single entry carrying the second row's values. -/
theorem c10_fetch_top_bounds :
    (∀ rows n, 1 ≤ n →
        (fetch_top_games_ranks rows n).1.length ≤ n ∧
        (fetch_top_games_ranks rows n).2 ≤ n) ∧
    fetch_top_games_ranks
        [⟨some 1, "5", "Catan", "0", some 7, some 9000⟩,
         ⟨some 2, "5", "Catan Second", "1", none, none⟩] 2 =
      ([("5", mkRankEntry ⟨some 2, "5", "Catan Second", "1", none, none⟩ 2)], 2) := by
  constructor
  · intro rows n hn
    exact fetchTopLoop_bounds rows n 0 [] (by omega) (by simp)
  · decide

/-- C10 witness for the bound at a concrete input. -/
theorem c10_witness :
    (fetch_top_games_ranks [⟨some 1, "7", "Gloomhaven", "0", none, none⟩] 1).1.length ≤ 1 ∧
    (fetch_top_games_ranks [⟨some 1, "7", "Gloomhaven", "0", none, none⟩] 1).2 ≤ 1 :=
  (c10_fetch_top_bounds.1 [⟨some 1, "7", "Gloomhaven", "0", none, none⟩] 1 (by decide))

/-! ### C7 — 429 with a parseable `Retry-After` header (confirmed) -/

/-- C7: a 429 response whose `Retry-After` header parses to `q` makes the
client sleep exactly `q` — not the computed `min(15·k, 90)` backoff — and
re-enter the loop on the same request (or raise if the rate-retry cap is
already reached). -/
theorem c7_retry_after_hint (maxRetries : Nat) (backoff : ℚ) (fatal : List Nat)
    (ra body : String) (q : ℚ) (rest : List HttpEvent) (retries rateRetries : Nat)
    (tr : GetTrace) (h : parseFloatS ra = some q) :
    getRun maxRetries backoff fatal (HttpEvent.resp 429 (some ra) body :: rest)
        retries rateRetries tr =
      if maxRateRetries maxRetries ≤ rateRetries + 1 then
        GetResult.rateLimitError ⟨tr.waits ++ [q], tr.attempts + 1⟩
      else
        getRun maxRetries backoff fatal rest retries (rateRetries + 1)
          ⟨tr.waits ++ [q], tr.attempts + 1⟩ := by
  rw [getRun]
  simp only [Option.some_bind, h]
  simp

/-- C7 witness: `Retry-After: 5` produces a sleep of exactly 5 (the default
backoff for a first 429 would have been 15). -/
theorem c7_witness :
    getRun 5 2 [] [HttpEvent.resp 429 (some "5") ""] 0 0 ⟨[], 0⟩ =
      getRun 5 2 [] [] 0 1 ⟨[(5 : ℚ)], 1⟩ ∧
    ((min (15 * 1) 90 : Nat) : ℚ) = 15 := by
  refine ⟨?_, by decide⟩
  have h := c7_retry_after_hint 5 2 [] "5" "" 5 [] 0 0 ⟨[], 0⟩ (by decide)
  rw [h]
  rfl

/-! ### C8 — 429 handling is isolated from the transient-error budget (confirmed) -/

/-- The waits of `k` consecutive header-less 429 responses starting from
rate-retry counter `rr`. -/
def rateWaitsFrom (rr k : Nat) : List ℚ :=
  (List.range k).map (fun i => ((min (15 * (rr + i + 1)) 90 : Nat) : ℚ))

/-- The waits of `k` consecutive header-less 429 responses from a fresh
counter. -/
def rateWaits (k : Nat) : List ℚ := rateWaitsFrom 0 k

lemma rateWaitsFrom_succ (rr k : Nat) :
    rateWaitsFrom rr (k + 1)
      = ((min (15 * (rr + 1)) 90 : Nat) : ℚ) :: rateWaitsFrom (rr + 1) k := by
  unfold rateWaitsFrom
  rw [List.range_succ_eq_map, List.map_cons, List.map_map]
  congr 1
  apply List.map_congr_left
  intro i _
  simp only [Function.comp_apply]
  congr 3
  omega

lemma getRun_429_run (mr : Nat) (b : ℚ) (fatal : List Nat) (body : String) (r : Nat) :
    ∀ (k rr : Nat) (tr : GetTrace), rr + k = maxRateRetries mr → 1 ≤ k →
      getRun mr b fatal (List.replicate k (HttpEvent.resp 429 none body)) r rr tr =
        GetResult.rateLimitError
          ⟨tr.waits ++ rateWaitsFrom rr k, tr.attempts + k⟩ := by
  intro k
  induction k with
  | zero => intro rr tr _ h1; omega
  | succ k ih =>
    intro rr tr hsum h1
    rw [List.replicate_succ]
    show getRun mr b fatal (HttpEvent.resp 429 none body :: List.replicate k _) r rr tr = _
    rw [getRun]
    simp only [Option.none_bind, if_true]
    rw [rateWaitsFrom_succ]
    by_cases hcap : maxRateRetries mr ≤ rr + 1
    · rw [if_pos hcap]
      have hk0 : k = 0 := by omega
      subst hk0
      refine congrArg GetResult.rateLimitError ?_
      show GetTrace.mk (tr.waits ++ [((min (15 * (rr + 1)) 90 : Nat) : ℚ)]) (tr.attempts + 1) = _
      rw [show rateWaitsFrom (rr + 1) 0 = [] from rfl]
    · rw [if_neg hcap]
      rw [ih (rr + 1) _ (by omega) (by omega)]
      refine congrArg GetResult.rateLimitError ?_
      show GetTrace.mk
          ((tr.waits ++ [((min (15 * (rr + 1)) 90 : Nat) : ℚ)]) ++ rateWaitsFrom (rr + 1) k)
          ((tr.attempts + 1) + k) = _
      rw [List.append_assoc]
      have ha : tr.attempts + 1 + k = tr.attempts + (k + 1) := by omega
      rw [ha]
      rfl

/-- C8: (1) the consecutive-429 ceiling `max(2·max_retries, 6)` strictly
exceeds the generic transient cap `max_retries`; (2) a header-less 429 is
retried with the rate-limit backoff `min(15·k, 90)` and leaves the generic
`retries` counter untouched; (3) a full run of consecutive 429s raises the
rate-limit error after exactly the ceiling many attempts; (4) the transient
path (`RequestException`) uses its own counter and its own
`min(backoff^r, 120)` backoff, leaving the rate counter untouched. -/
theorem c8_rate_limit_isolation :
    (∀ mr, mr < maxRateRetries mr) ∧
    (∀ mr (b : ℚ) fatal body rest r rr tr,
      getRun mr b fatal (HttpEvent.resp 429 none body :: rest) r rr tr =
        if maxRateRetries mr ≤ rr + 1 then
          GetResult.rateLimitError
            ⟨tr.waits ++ [((min (15 * (rr + 1)) 90 : Nat) : ℚ)], tr.attempts + 1⟩
        else
          getRun mr b fatal rest r (rr + 1)
            ⟨tr.waits ++ [((min (15 * (rr + 1)) 90 : Nat) : ℚ)], tr.attempts + 1⟩) ∧
    (∀ mr (b : ℚ) fatal body,
      getRun mr b fatal
          (List.replicate (maxRateRetries mr) (HttpEvent.resp 429 none body)) 0 0 ⟨[], 0⟩ =
        GetResult.rateLimitError ⟨rateWaits (maxRateRetries mr), maxRateRetries mr⟩) ∧
    (∀ mr (b : ℚ) fatal rest r rr tr,
      getRun mr b fatal (HttpEvent.exc :: rest) r rr tr =
        if mr < r + 1 then GetResult.rethrow ⟨tr.waits, tr.attempts + 1⟩
        else getRun mr b fatal rest (r + 1) rr
          ⟨tr.waits ++ [min (b ^ (r + 1)) 120], tr.attempts + 1⟩) := by
  refine ⟨fun mr => ?_, fun mr b fatal body rest r rr tr => ?_, fun mr b fatal body => ?_,
    fun mr b fatal rest r rr tr => ?_⟩
  · unfold maxRateRetries
    omega
  · rw [getRun]
    simp only [Option.none_bind]
    simp
  · have h := getRun_429_run mr b fatal body 0 (maxRateRetries mr) 0 ⟨[], 0⟩ (by omega)
      (by unfold maxRateRetries; omega)
    rw [h]
    refine congrArg GetResult.rateLimitError ?_
    show GetTrace.mk ([] ++ rateWaitsFrom 0 (maxRateRetries mr)) (0 + maxRateRetries mr) = _
    rw [List.nil_append]
    have ha : 0 + maxRateRetries mr = maxRateRetries mr := by omega
    rw [ha]
    rfl
  · rw [getRun]

/-! ### C9 — percentage fields derive from the vote tallies (confirmed)

Percentages are represented in tenths of a percent: the source's
`round((best / total) * 100, 1)` is `pctTenths best total`, and `0.0` is `0`
tenths. -/

/-- C9: for every player-count poll entry the client parses (and the sync
paths store verbatim via `mkRecRow`), the stored `vote_count` is the sum of
the three vote fields; when that sum is non-zero each percentage equals the
rounded `votes/total*100`, and when it is zero each percentage is zero. -/
theorem c9_percentage_equations (entries : List PollResultNode) :
    ((mkRecRow (mkPollEntry entries)).voteCount =
        (mkRecRow (mkPollEntry entries)).bestVotes +
          (mkRecRow (mkPollEntry entries)).recVotes +
          (mkRecRow (mkPollEntry entries)).notrecVotes) ∧
    ((mkRecRow (mkPollEntry entries)).voteCount ≠ 0 →
      (mkRecRow (mkPollEntry entries)).bestPct =
          pctTenths (mkRecRow (mkPollEntry entries)).bestVotes
            (mkRecRow (mkPollEntry entries)).voteCount ∧
      (mkRecRow (mkPollEntry entries)).recPct =
          pctTenths (mkRecRow (mkPollEntry entries)).recVotes
            (mkRecRow (mkPollEntry entries)).voteCount ∧
      (mkRecRow (mkPollEntry entries)).notrecPct =
          pctTenths (mkRecRow (mkPollEntry entries)).notrecVotes
            (mkRecRow (mkPollEntry entries)).voteCount) ∧
    ((mkRecRow (mkPollEntry entries)).voteCount = 0 →
      (mkRecRow (mkPollEntry entries)).bestPct = 0 ∧
      (mkRecRow (mkPollEntry entries)).recPct = 0 ∧
      (mkRecRow (mkPollEntry entries)).notrecPct = 0) := by
  rcases htv : tallyVotes entries with ⟨b, rv, nv⟩
  by_cases hz : b + rv + nv = 0
  · simp [mkRecRow, mkPollEntry, orZeroI, htv, hz]
  · simp [mkRecRow, mkPollEntry, orZeroI, htv, hz]

/-- The poll entry of end-to-end scenario 2: `Best: 10, Recommended: 5,
Not Recommended: 5`. -/
def exPollEntries : List PollResultNode :=
  [⟨"Best", some "10"⟩, ⟨"Recommended", some "5"⟩, ⟨"Not Recommended", some "5"⟩]

/-- C9 witness: scenario 2 yields `vote_count = 20`, `best_pct = 50.0`,
`rec_pct = 25.0`, `notrec_pct = 25.0` (in tenths: 500/250/250). -/
theorem c9_witness :
    (mkRecRow (mkPollEntry exPollEntries)).voteCount ≠ 0 ∧
    (mkRecRow (mkPollEntry exPollEntries)).voteCount = 20 ∧
    (mkRecRow (mkPollEntry exPollEntries)).bestPct = 500 ∧
    (mkRecRow (mkPollEntry exPollEntries)).recPct = 250 ∧
    (mkRecRow (mkPollEntry exPollEntries)).notrecPct = 250 := by
  refine ⟨by decide, by decide, ?_, ?_, ?_⟩
  · rw [((c9_percentage_equations exPollEntries).2.1 (by decide)).1]
    decide
  · rw [((c9_percentage_equations exPollEntries).2.1 (by decide)).2.1]
    decide
  · rw [((c9_percentage_equations exPollEntries).2.1 (by decide)).2.2]
    decide

/-! ### Projection lemmas for the sync steps -/

lemma upsertGamesFull_recs (gm : List (String × GameInfo)) (dm : List (String × Detail))
    (com : List (String × List String)) (s : Store) :
    (upsertGamesFull gm dm com s).recs = s.recs := rfl

lemma upsertGamesFull_links (gm : List (String × GameInfo)) (dm : List (String × Detail))
    (com : List (String × List String)) (s : Store) :
    (upsertGamesFull gm dm com s).links = s.links := rfl

lemma setRelationsFull_recs (d : List String) (dm : List (String × Detail)) (s : Store) :
    (setRelationsFull d dm s).recs = s.recs := rfl

lemma setRelationsFull_links (d : List String) (dm : List (String × Detail)) (s : Store) :
    (setRelationsFull d dm s).links = s.links := rfl

lemma replaceRecsFull_games (d : List String)
    (pc : List (String × List (Int × PCData))) (s : Store) :
    (replaceRecsFull d pc s).games = s.games := rfl

lemma replaceRecsFull_links (d : List String)
    (pc : List (String × List (Int × PCData))) (s : Store) :
    (replaceRecsFull d pc s).links = s.links := rfl

lemma reconcileCollection_games (u : String) (t : List String) (s : Store) :
    (reconcileCollection u t s).games = s.games := rfl

lemma reconcileCollection_recs (u : String) (t : List String) (s : Store) :
    (reconcileCollection u t s).recs = s.recs := rfl

lemma foldl_reconcileCollection_games (es : List (String × List String)) :
    ∀ s : Store, (es.foldl (fun st p => reconcileCollection p.1 p.2 st) s).games = s.games := by
  induction es with
  | nil => intro s; rfl
  | cons e rest ih =>
    intro s
    rw [List.foldl_cons, ih, reconcileCollection_games]

lemma foldl_reconcileCollection_recs (es : List (String × List String)) :
    ∀ s : Store, (es.foldl (fun st p => reconcileCollection p.1 p.2 st) s).recs = s.recs := by
  induction es with
  | nil => intro s; rfl
  | cons e rest ih =>
    intro s
    rw [List.foldl_cons, ih, reconcileCollection_recs]

lemma reconcileCollectionsFull_games (com : List (String × List String)) (s : Store) :
    (reconcileCollectionsFull com s).games = s.games :=
  foldl_reconcileCollection_games (normalizeCom com) s

lemma reconcileCollectionsFull_recs (com : List (String × List String)) (s : Store) :
    (reconcileCollectionsFull com s).recs = s.recs :=
  foldl_reconcileCollection_recs (normalizeCom com) s

lemma recomputeOwnedFull_recs (d : List String) (com : List (String × List String)) (s : Store) :
    (recomputeOwnedFull d com s).recs = s.recs := rfl

lemma upsertGamesChunk_recs (ids : List String) (gm : List (String × GameInfo))
    (dm : List (String × Detail)) (com : List (String × List String)) (s : Store) :
    (upsertGamesChunk ids gm dm com s).recs = s.recs := rfl

lemma setRelationsChunk_recs (ids : List String) (dm : List (String × Detail)) (s : Store) :
    (setRelationsChunk ids dm s).recs = s.recs := rfl

lemma replaceRecsChunk_games (ids : List String) (dm : List (String × Detail))
    (pc : List (String × List (Int × PCData))) (s : Store) :
    (replaceRecsChunk ids dm pc s).games = s.games := rfl

lemma reconcileLinksChunk_games (ids : List String) (com : List (String × List String))
    (s : Store) :
    (reconcileLinksChunk ids com s).games = s.games := rfl

lemma reconcileLinksChunk_recs (ids : List String) (com : List (String × List String))
    (s : Store) :
    (reconcileLinksChunk ids com s).recs = s.recs := rfl

/-! ### Pointwise evaluation lemmas (all definitional) -/

lemma pruneOutside_games_eval (d : List String) (s : Store) (g : String) :
    (pruneOutside d s).games g = if g ∈ d then s.games g else none := rfl

lemma pruneOutside_recs_eval (d : List String) (s : Store) (g : String) (c : Int) :
    (pruneOutside d s).recs g c = if g ∈ d then s.recs g c else none := rfl

lemma upsertGamesFull_games_eval (gm : List (String × GameInfo))
    (dm : List (String × Detail)) (com : List (String × List String)) (s : Store)
    (g : String) :
    (upsertGamesFull gm dm com s).games g =
      match alookup gm g with
      | none => s.games g
      | some info =>
        match s.games g with
        | some old => some (fullUpdateRow info ((alookup dm g).getD emptyDetail) old)
        | none => some (fullCreateRow info ((alookup dm g).getD emptyDetail)
            (ownersLookup com g)) := rfl

lemma setRelationsFull_games_eval (d : List String) (dm : List (String × Detail))
    (s : Store) (g : String) :
    (setRelationsFull d dm s).games g =
      if g ∈ d then
        (match s.games g with
        | some row =>
          some { row with
            categories := sortedDedup (((alookup dm g).getD emptyDetail).categories.filter (· ≠ ""))
            families := sortedDedup (((alookup dm g).getD emptyDetail).families.filter (· ≠ "")) }
        | none => none)
      else s.games g := rfl

lemma replaceRecsFull_recs_eval (d : List String)
    (pc : List (String × List (Int × PCData))) (s : Store) (g : String) (c : Int) :
    (replaceRecsFull d pc s).recs g c =
      if g ∈ d ∧ (s.games g).isSome then
        (match alookup ((alookup pc g).getD []) c with
        | some dat => some (mkRecRow dat)
        | none => none)
      else s.recs g c := rfl

lemma recomputeOwnedFull_games_eval (d : List String) (com : List (String × List String))
    (s : Store) (g : String) :
    (recomputeOwnedFull d com s).games g =
      if g ∈ d ∨ ownersLookup com g ≠ [] then
        (match s.games g with
        | some row =>
          some { row with
            owned := !(ownersOfLinks s.links g).isEmpty
            ownedBy := ownersOfLinks s.links g }
        | none => none)
      else s.games g := rfl

lemma upsertGamesChunk_games_eval (ids : List String) (gm : List (String × GameInfo))
    (dm : List (String × Detail)) (com : List (String × List String)) (s : Store)
    (g : String) :
    (upsertGamesChunk ids gm dm com s).games g =
      if g ∈ ids then
        (match alookup gm g, alookup dm g with
        | none, none => s.games g
        | infoOpt, detailOpt =>
          match s.games g with
          | some old =>
            some (chunkUpdateRow (infoOpt.getD emptyInfo) detailOpt (ownersLookup com g) old)
          | none => some (chunkCreateRow (infoOpt.getD emptyInfo) detailOpt (ownersLookup com g)))
      else s.games g := rfl

lemma setRelationsChunk_games_eval (ids : List String) (dm : List (String × Detail))
    (s : Store) (g : String) :
    (setRelationsChunk ids dm s).games g =
      if g ∈ ids then
        (match alookup dm g with
        | none => s.games g
        | some detail =>
          match s.games g with
          | some row =>
            some { row with
              categories := sortedDedup (detail.categories.filter (· ≠ ""))
              families := sortedDedup (detail.families.filter (· ≠ "")) }
          | none => none)
      else s.games g := rfl

lemma replaceRecsChunk_recs_eval (ids : List String) (dm : List (String × Detail))
    (pc : List (String × List (Int × PCData))) (s : Store) (g : String) (c : Int) :
    (replaceRecsChunk ids dm pc s).recs g c =
      if g ∈ ids ∧ (alookup dm g).isSome ∧ (s.games g).isSome then
        (match alookup ((alookup pc g).getD []) c with
        | some dat => some (mkRecRow dat)
        | none => none)
      else s.recs g c := rfl

/-! ### C2 — `year` frame condition when detail data is absent (corrected) -/

/-- A pre-existing row with a known year. -/
def exRow1995 : GameRow :=
  { title := "Old Title", type := "Base Game", year := some "1995",
    avgRating := none, numVoters := none, weight := none, weightVotes := none,
    bggRank := none, owned := false, ownedBy := [], categories := [], families := [] }

/-- A store holding only game `"1"`, which has year `"1995"`. -/
def exStoreC2 : Store :=
  { games := fun g => if g = "1" then some exRow1995 else none
    recs := fun _ _ => none
    colls := []
    links := [] }

/-- C2 (counterexample): in the full sync (`_sync_catalog`), an id present in
the games map but absent from the details map has its stored year overwritten
with `None` — not left unchanged as claimed: game `"1"` goes from year
`"1995"` to no year under a sync whose details map is empty. -/
theorem c2_counterexample :
    ((sync_catalog [("1", ⟨some "New Title", some "Base Game", none, none, none⟩)]
        [] [] [] false exStoreC2).games "1").map GameRow.year = some none ∧
    (exStoreC2.games "1").map GameRow.year = some (some "1995") := by
  exact ⟨by decide, by decide⟩

/-- C2 (amended): the claimed frame condition holds for `sync_chunk`
(`_sync_refresh_chunk`): an id with no detail entry keeps its stored year.
In the full sync (`_sync_catalog`) `year` is instead assigned
unconditionally from the details map, a missing entry acting as `{}`, so an
existing item with no detail entry has its year set to `None`. -/
theorem c2_year_frame (gamesMap : List (String × GameInfo))
    (detailsMap : List (String × Detail))
    (pcounts : List (String × List (Int × PCData)))
    (com : List (String × List String)) (s : Store) (g : String) :
    (∀ chunkIds old, alookup detailsMap g = none → s.games g = some old →
      ∃ row, (sync_refresh_chunk chunkIds gamesMap detailsMap pcounts com s).games g
          = some row ∧ row.year = old.year) ∧
    (∀ prune, (alookup gamesMap g).isSome →
      ∃ row, (sync_catalog gamesMap detailsMap pcounts com prune s).games g = some row ∧
        row.year = ((alookup detailsMap g).getD emptyDetail).year) := by
  constructor
  · intro chunkIds old hd hs
    simp only [sync_refresh_chunk]
    by_cases hids : chunkIds.filter
        (fun g2 => decide ((alookup gamesMap g2).isSome ∨ (alookup detailsMap g2).isSome)) = []
    · rw [if_pos hids]
      exact ⟨old, hs, rfl⟩
    · rw [if_neg hids]
      rw [reconcileLinksChunk_games, replaceRecsChunk_games]
      rw [setRelationsChunk_games_eval, upsertGamesChunk_games_eval]
      by_cases hmem : g ∈ chunkIds.filter
          (fun g2 => decide ((alookup gamesMap g2).isSome ∨ (alookup detailsMap g2).isSome))
      · rw [if_pos hmem, if_pos hmem, hd]
        rcases hgm : alookup gamesMap g with _ | info
        · exfalso
          have hP := List.of_mem_filter hmem
          simp [hgm, hd] at hP
        · rw [hs]
          refine ⟨chunkUpdateRow info none (ownersLookup com g) old, rfl, ?_⟩
          simp [chunkUpdateRow]
      · rw [if_neg hmem, if_neg hmem, hs]
        exact ⟨old, rfl, rfl⟩
  · intro prune hg
    rcases Option.isSome_iff_exists.mp hg with ⟨info, hgm⟩
    have hmem : g ∈ gamesMap.map Prod.fst := (alookup_isSome_iff _ _).mp hg
    simp only [sync_catalog]
    rw [recomputeOwnedFull_games_eval]
    rw [reconcileCollectionsFull_games, replaceRecsFull_games]
    rw [setRelationsFull_games_eval]
    rw [if_pos hmem]
    rw [upsertGamesFull_games_eval, hgm]
    have hs1 : (if prune then pruneOutside (gamesMap.map Prod.fst) s else s).games g
        = s.games g := by
      cases prune
      · rfl
      · simp only [if_true, pruneOutside_games_eval, if_pos hmem]
    rw [hs1]
    rw [if_pos (Or.inl hmem)]
    rcases hold : s.games g with _ | old
    · refine ⟨_, rfl, ?_⟩
      simp [fullCreateRow]
    · refine ⟨_, rfl, ?_⟩
      simp [fullUpdateRow]

/-- C2 witness: a chunk whose details map is empty leaves the year of the
stored game `"1"` at `"1995"`, and a full sync over the same inputs drives
it to `None`. -/
theorem c2_witness :
    (∃ row, (sync_refresh_chunk ["1"]
        [("1", ⟨some "New Title", some "Base Game", none, none, none⟩)] [] [] []
        exStoreC2).games "1" = some row ∧ row.year = exRow1995.year) ∧
    (∃ row, (sync_catalog [("1", ⟨some "New Title", some "Base Game", none, none, none⟩)]
        [] [] [] false exStoreC2).games "1" = some row ∧
      row.year = ((alookup ([] : List (String × Detail)) "1").getD emptyDetail).year) := by
  constructor
  · exact (c2_year_frame [("1", ⟨some "New Title", some "Base Game", none, none, none⟩)]
      [] [] [] exStoreC2 "1").1 ["1"] exRow1995 (by decide) (by decide)
  · exact (c2_year_frame [("1", ⟨some "New Title", some "Base Game", none, none, none⟩)]
      [] [] [] exStoreC2 "1").2 false (by decide)

/-! ### C4 — `owned == bool(owned_by)` invariant (confirmed) -/

/-- The derived-ownership invariant: every stored game's `owned` flag agrees
with its `owned_by` list being non-empty. -/
def OwnedInv (s : Store) : Prop :=
  ∀ g row, s.games g = some row → row.owned = !row.ownedBy.isEmpty

lemma ownedInv_of_games_eq (s s' : Store) (hg : s'.games = s.games) :
    OwnedInv s → OwnedInv s' := fun h g row hrow => h g row (hg ▸ hrow)

lemma ownedInv_pruneOutside (d : List String) (s : Store) (h : OwnedInv s) :
    OwnedInv (pruneOutside d s) := by
  intro g row hrow
  rw [pruneOutside_games_eval] at hrow
  by_cases hd : g ∈ d
  · rw [if_pos hd] at hrow
    exact h g row hrow
  · rw [if_neg hd] at hrow
    exact Option.noConfusion hrow

lemma ownedInv_upsertGamesFull (gm : List (String × GameInfo))
    (dm : List (String × Detail)) (com : List (String × List String)) (s : Store)
    (h : OwnedInv s) : OwnedInv (upsertGamesFull gm dm com s) := by
  intro g row hrow
  rw [upsertGamesFull_games_eval] at hrow
  rcases hgm : alookup gm g with _ | info
  · rw [hgm] at hrow
    exact h g row hrow
  · rw [hgm] at hrow
    rcases hs : s.games g with _ | old
    · simp only [hs, Option.some.injEq] at hrow
      subst hrow
      rfl
    · simp only [hs, Option.some.injEq] at hrow
      subst hrow
      exact h g old hs

lemma ownedInv_setRelationsFull (d : List String) (dm : List (String × Detail))
    (s : Store) (h : OwnedInv s) : OwnedInv (setRelationsFull d dm s) := by
  intro g row hrow
  rw [setRelationsFull_games_eval] at hrow
  by_cases hd : g ∈ d
  · rw [if_pos hd] at hrow
    rcases hs : s.games g with _ | old
    · simp [hs] at hrow
    · simp only [hs, Option.some.injEq] at hrow
      subst hrow
      exact h g old hs
  · rw [if_neg hd] at hrow
    exact h g row hrow

lemma ownedInv_recomputeOwnedFull (d : List String) (com : List (String × List String))
    (s : Store) (h : OwnedInv s) : OwnedInv (recomputeOwnedFull d com s) := by
  intro g row hrow
  rw [recomputeOwnedFull_games_eval] at hrow
  by_cases hd : g ∈ d ∨ ownersLookup com g ≠ []
  · rw [if_pos hd] at hrow
    rcases hs : s.games g with _ | old
    · simp [hs] at hrow
    · simp only [hs, Option.some.injEq] at hrow
      subst hrow
      rfl
  · rw [if_neg hd] at hrow
    exact h g row hrow

lemma ownedInv_upsertGamesChunk (ids : List String) (gm : List (String × GameInfo))
    (dm : List (String × Detail)) (com : List (String × List String)) (s : Store)
    (h : OwnedInv s) : OwnedInv (upsertGamesChunk ids gm dm com s) := by
  intro g row hrow
  rw [upsertGamesChunk_games_eval] at hrow
  by_cases hd : g ∈ ids
  · rw [if_pos hd] at hrow
    rcases hgm : alookup gm g with _ | info <;> rcases hdm : alookup dm g with _ | detail
    · rw [hgm, hdm] at hrow
      exact h g row hrow
    all_goals
      rw [hgm, hdm] at hrow
      rcases hs : s.games g with _ | old <;>
        simp only [hs, Option.some.injEq] at hrow <;> subst hrow <;> rfl
  · rw [if_neg hd] at hrow
    exact h g row hrow

lemma ownedInv_setRelationsChunk (ids : List String) (dm : List (String × Detail))
    (s : Store) (h : OwnedInv s) : OwnedInv (setRelationsChunk ids dm s) := by
  intro g row hrow
  rw [setRelationsChunk_games_eval] at hrow
  by_cases hd : g ∈ ids
  · rw [if_pos hd] at hrow
    rcases hdm : alookup dm g with _ | detail
    · rw [hdm] at hrow
      exact h g row hrow
    · rw [hdm] at hrow
      rcases hs : s.games g with _ | old
      · simp [hs] at hrow
      · simp only [hs, Option.some.injEq] at hrow
        subst hrow
        exact h g old hs
  · rw [if_neg hd] at hrow
    exact h g row hrow

lemma ownedInv_purge (active : List String) (s : Store) (h : OwnedInv s) :
    OwnedInv (purge_untracked_collections active s) := by
  simp only [purge_untracked_collections]
  split
  · exact h
  · split
    · exact ownedInv_of_games_eq s _ rfl h
    · intro g row hrow
      simp only [] at hrow
      by_cases haf : g ∈ (s.links.filter
          (fun p => decide (p.1 ∈ s.colls.filter
            (fun u => decide (u ∉ (active.map sTrim).filter (· ≠ "")))))).map Prod.snd
      · rw [if_pos haf] at hrow
        rcases hs : s.games g with _ | old
        · simp [hs] at hrow
        · simp only [hs, Option.some.injEq] at hrow
          subst hrow
          rfl
      · rw [if_neg haf] at hrow
        exact h g row hrow

/-- C4: the ownership-consistency invariant `owned == bool(owned_by)` is
preserved by every Reconciler operation that touches ownership: the full
sync, the chunk sync, and `purge_untracked_collections` (every row they
write either copies both derived fields from a row satisfying it or writes
`owned := bool(owners)` and `owned_by := owners` together). -/
theorem c4_owned_consistency (gm : List (String × GameInfo))
    (dm : List (String × Detail)) (pc : List (String × List (Int × PCData)))
    (com : List (String × List String)) (prune : Bool) (chunkIds active : List String)
    (s : Store) (h : OwnedInv s) :
    OwnedInv (sync_catalog gm dm pc com prune s) ∧
    OwnedInv (sync_refresh_chunk chunkIds gm dm pc com s) ∧
    OwnedInv (purge_untracked_collections active s) := by
  refine ⟨?_, ?_, ownedInv_purge active s h⟩
  · simp only [sync_catalog]
    apply ownedInv_recomputeOwnedFull
    apply ownedInv_of_games_eq _ _ (reconcileCollectionsFull_games _ _)
    apply ownedInv_of_games_eq _ _ (replaceRecsFull_games _ _ _)
    apply ownedInv_setRelationsFull
    apply ownedInv_upsertGamesFull
    cases prune
    · exact h
    · exact ownedInv_pruneOutside _ s h
  · simp only [sync_refresh_chunk]
    split
    · exact h
    · apply ownedInv_of_games_eq _ _ (reconcileLinksChunk_games _ _ _)
      apply ownedInv_of_games_eq _ _ (replaceRecsChunk_games _ _ _ _)
      apply ownedInv_setRelationsChunk
      exact ownedInv_upsertGamesChunk _ gm dm com s h

/-- C4 witness at a concrete consistent store (one owned game, one not). -/
theorem c4_witness :
    OwnedInv (sync_catalog [("1", ⟨some "A", none, none, none, none⟩)] [] []
      [("alice", ["1"])] true exStoreC2) ∧
    OwnedInv (sync_refresh_chunk ["1"] [("1", ⟨some "A", none, none, none, none⟩)] [] []
      [("alice", ["1"])] exStoreC2) ∧
    OwnedInv (purge_untracked_collections [] exStoreC2) := by
  refine c4_owned_consistency _ _ _ _ _ _ _ _ ?_
  intro g row hrow
  by_cases hg : g = "1"
  · subst hg
    have h1 : exStoreC2.games "1" = some exRow1995 := by decide
    rw [h1, Option.some.injEq] at hrow
    subst hrow
    decide
  · have h1 : exStoreC2.games g = none := by
      show (if g = "1" then some exRow1995 else none) = none
      rw [if_neg hg]
    rw [h1] at hrow
    exact Option.noConfusion hrow

/-! ### C5 — full replace-by-count of recommendation rows (confirmed) -/

lemma upsertGamesFull_isSome (gm : List (String × GameInfo))
    (dm : List (String × Detail)) (com : List (String × List String)) (s : Store)
    (g : String) (hg : (alookup gm g).isSome) :
    ((upsertGamesFull gm dm com s).games g).isSome := by
  rw [upsertGamesFull_games_eval]
  rcases hgm : alookup gm g with _ | info
  · rw [hgm] at hg
    exact absurd hg (by simp)
  · rcases hs : s.games g with _ | old <;> simp

lemma setRelationsFull_isSome (d : List String) (dm : List (String × Detail))
    (s : Store) (g : String) (hg : ((s.games g)).isSome) :
    ((setRelationsFull d dm s).games g).isSome := by
  rw [setRelationsFull_games_eval]
  by_cases hd : g ∈ d
  · rw [if_pos hd]
    rcases hs : s.games g with _ | old
    · rw [hs] at hg
      exact absurd hg (by simp)
    · simp
  · rw [if_neg hd]
    exact hg

lemma upsertGamesChunk_isSome (ids : List String) (gm : List (String × GameInfo))
    (dm : List (String × Detail)) (com : List (String × List String)) (s : Store)
    (g : String) (hmem : g ∈ ids) (hor : (alookup gm g).isSome ∨ (alookup dm g).isSome) :
    ((upsertGamesChunk ids gm dm com s).games g).isSome := by
  rw [upsertGamesChunk_games_eval, if_pos hmem]
  rcases hgm : alookup gm g with _ | info <;> rcases hdm : alookup dm g with _ | detail
  · rw [hgm, hdm] at hor
    simp at hor
  all_goals rcases hs : s.games g with _ | old <;> simp

lemma setRelationsChunk_isSome (ids : List String) (dm : List (String × Detail))
    (s : Store) (g : String) (hg : ((s.games g)).isSome) :
    ((setRelationsChunk ids dm s).games g).isSome := by
  rw [setRelationsChunk_games_eval]
  by_cases hd : g ∈ ids
  · rw [if_pos hd]
    rcases hdm : alookup dm g with _ | detail
    · exact hg
    · rcases hs : s.games g with _ | old
      · rw [hs] at hg
        exact absurd hg (by simp)
      · simp
  · rw [if_neg hd]
    exact hg

/-- C5: both sync paths fully replace an item's recommendation rows by count:
after the sync, the stored row at `(gid, count)` is exactly the incoming
map's entry for that count passed through `mkRecRow` — updated in place when
it existed, created when it did not, and `none` (deleted) for counts absent
from the incoming map.  The full sync does this for every games-map id; the
chunk does it for every processed id that has a detail entry. -/
theorem c5_replace_by_count (gm : List (String × GameInfo))
    (dm : List (String × Detail)) (pc : List (String × List (Int × PCData)))
    (com : List (String × List String)) (prune : Bool) (chunkIds : List String)
    (s : Store) (g : String) (c : Int) :
    ((alookup gm g).isSome →
      (sync_catalog gm dm pc com prune s).recs g c =
        (alookup ((alookup pc g).getD []) c).map mkRecRow) ∧
    (g ∈ chunkIds → (alookup dm g).isSome →
      (sync_refresh_chunk chunkIds gm dm pc com s).recs g c =
        (alookup ((alookup pc g).getD []) c).map mkRecRow) := by
  constructor
  · intro hg
    have hmem : g ∈ gm.map Prod.fst := (alookup_isSome_iff _ _).mp hg
    simp only [sync_catalog]
    rw [recomputeOwnedFull_recs, reconcileCollectionsFull_recs, replaceRecsFull_recs_eval]
    have hsome := setRelationsFull_isSome (gm.map Prod.fst) dm
      (upsertGamesFull gm dm com (if prune then pruneOutside (gm.map Prod.fst) s else s)) g
      (upsertGamesFull_isSome gm dm com _ g hg)
    rw [if_pos ⟨hmem, hsome⟩]
    rcases hdat : alookup ((alookup pc g).getD []) c with _ | dat <;> simp
  · intro hchunk hdm
    simp only [sync_refresh_chunk]
    have hP : g ∈ chunkIds.filter
        (fun g2 => decide ((alookup gm g2).isSome ∨ (alookup dm g2).isSome)) := by
      apply List.mem_filter.mpr
      refine ⟨hchunk, ?_⟩
      simp [hdm]
    have hne : chunkIds.filter
        (fun g2 => decide ((alookup gm g2).isSome ∨ (alookup dm g2).isSome)) ≠ [] := by
      intro h0
      rw [h0] at hP
      exact absurd hP (List.not_mem_nil g)
    rw [if_neg hne]
    rw [reconcileLinksChunk_recs, replaceRecsChunk_recs_eval]
    have hsome := setRelationsChunk_isSome
      (chunkIds.filter
        (fun g2 => decide ((alookup gm g2).isSome ∨ (alookup dm g2).isSome))) dm
      (upsertGamesChunk
        (chunkIds.filter
          (fun g2 => decide ((alookup gm g2).isSome ∨ (alookup dm g2).isSome)))
        gm dm com s) g
      (upsertGamesChunk_isSome _ gm dm com s g hP (Or.inr hdm))
    rw [if_pos ⟨hP, hdm, hsome⟩]
    rcases hdat : alookup ((alookup pc g).getD []) c with _ | dat <;> simp

/-- An existing recommendation row (arbitrary stale values). -/
def exOldRec : RecRow := ⟨100, 1, 200, 2, 700, 7, 10⟩

/-- A store holding game `"7"` with recommendation rows at counts 2, 3, 4. -/
def exStoreC5 : Store :=
  { games := fun g => if g = "7" then some exRow1995 else none
    recs := fun g c => if g = "7" ∧ (c = 2 ∨ c = 3 ∨ c = 4) then some exOldRec else none
    colls := []
    links := [] }

def exPC2 : PCData := ⟨some 500, some 10, some 250, some 5, some 250, some 5, some 20⟩

def exPC3 : PCData := ⟨some 0, some 0, some 1000, some 3, some 0, some 0, some 3⟩

/-- C5 witness: syncing item `"7"` whose incoming player-count map has counts
{2, 3} while counts {2, 3, 4} are stored deletes count 4's row and rewrites
counts 2 and 3 in place, in both the full sync and the chunk sync. -/
theorem c5_witness :
    ((sync_catalog [("7", ⟨some "G", none, none, none, none⟩)] []
        [("7", [(2, exPC2), (3, exPC3)])] [] false exStoreC5).recs "7" 4 = none ∧
      (sync_catalog [("7", ⟨some "G", none, none, none, none⟩)] []
        [("7", [(2, exPC2), (3, exPC3)])] [] false exStoreC5).recs "7" 2
          = some (mkRecRow exPC2) ∧
      (sync_catalog [("7", ⟨some "G", none, none, none, none⟩)] []
        [("7", [(2, exPC2), (3, exPC3)])] [] false exStoreC5).recs "7" 3
          = some (mkRecRow exPC3)) ∧
    ((sync_refresh_chunk ["7"] [("7", ⟨some "G", none, none, none, none⟩)]
        [("7", emptyDetail)] [("7", [(2, exPC2), (3, exPC3)])] [] exStoreC5).recs "7" 4
          = none ∧
      (sync_refresh_chunk ["7"] [("7", ⟨some "G", none, none, none, none⟩)]
        [("7", emptyDetail)] [("7", [(2, exPC2), (3, exPC3)])] [] exStoreC5).recs "7" 2
          = some (mkRecRow exPC2)) := by
  refine ⟨⟨?_, ?_, ?_⟩, ?_, ?_⟩
  · exact (c5_replace_by_count [("7", ⟨some "G", none, none, none, none⟩)] []
      [("7", [(2, exPC2), (3, exPC3)])] [] false ["7"] exStoreC5 "7" 4).1 (by decide)
  · exact (c5_replace_by_count [("7", ⟨some "G", none, none, none, none⟩)] []
      [("7", [(2, exPC2), (3, exPC3)])] [] false ["7"] exStoreC5 "7" 2).1 (by decide)
  · exact (c5_replace_by_count [("7", ⟨some "G", none, none, none, none⟩)] []
      [("7", [(2, exPC2), (3, exPC3)])] [] false ["7"] exStoreC5 "7" 3).1 (by decide)
  · exact (c5_replace_by_count [("7", ⟨some "G", none, none, none, none⟩)]
      [("7", emptyDetail)] [("7", [(2, exPC2), (3, exPC3)])] [] false ["7"] exStoreC5
      "7" 4).2 (by decide) (by decide)
  · exact (c5_replace_by_count [("7", ⟨some "G", none, none, none, none⟩)]
      [("7", emptyDetail)] [("7", [(2, exPC2), (3, exPC3)])] [] false ["7"] exStoreC5
      "7" 2).2 (by decide) (by decide)

/-! ### C6 — still-processing retries in the details iterator (confirmed) -/

/-- The queue waits of `k` consecutive still-processing responses starting
from queue-retry counter `qr`: `min(5 + 5·k, 60)` each. -/
def queueWaitsFrom (qr k : Nat) : List Nat :=
  (List.range k).map (fun i => min (5 + (qr + i + 1) * 5) 60)

lemma queueWaitsFrom_succ (qr k : Nat) :
    queueWaitsFrom qr (k + 1)
      = min (5 + (qr + 1) * 5) 60 :: queueWaitsFrom (qr + 1) k := by
  unfold queueWaitsFrom
  rw [List.range_succ_eq_map, List.map_cons, List.map_map]
  congr 1
  apply List.map_congr_left
  intro i _
  simp only [Function.comp_apply]
  congr 2
  omega

lemma queueWaitsFrom_snoc (qr k : Nat) :
    queueWaitsFrom qr (k + 1)
      = queueWaitsFrom qr k ++ [min (5 + (qr + k + 1) * 5) 60] := by
  unfold queueWaitsFrom
  rw [List.range_succ, List.map_append]
  rfl

/-- A still-processing response: HTTP 202 with only a message body. -/
def queuedResp (msg : String) : ThingResp := ThingResp.xml 202 [] (some msg)

/-- Strict increase along a list of naturals (executable). -/
def strictlyIncreasing : List Nat → Bool
  | [] => true
  | [_] => true
  | a :: b :: rest => decide (a < b) && strictlyIncreasing (b :: rest)

lemma iterDetailsGo_queued_steps (ids : List String) (bs maxIds : Nat) (msg : String)
    (hmsg : sTrim msg ≠ "") :
    ∀ (k qr : Nat) (script : List ThingResp) (idx cb : Nat) (tr : DetailsTrace),
      idx < ids.length → qr + k ≤ 11 →
      iterDetailsGo ids bs maxIds
          (List.replicate k (queuedResp msg) ++ script) idx cb qr tr =
        iterDetailsGo ids bs maxIds script idx cb (qr + k)
          { tr with requests := tr.requests ++ List.replicate k ((ids.drop idx).take cb),
                    queueWaits := tr.queueWaits ++ queueWaitsFrom qr k } := by
  intro k
  induction k with
  | zero =>
    intro qr script idx cb tr _ _
    simp [queueWaitsFrom]
  | succ k ih =>
    intro qr script idx cb tr hidx hcap
    rw [List.replicate_succ, List.cons_append]
    rw [iterDetailsGo]
    rw [if_neg (by omega : ¬ ids.length ≤ idx)]
    show (if ([] : List XmlItem) = [] ∧ sTrim ((some msg).getD "") ≠ "" ∧ _ then _ else _) = _
    rw [if_pos ⟨rfl, hmsg, Or.inl rfl⟩]
    show (if 12 ≤ qr + 1 then _ else _) = _
    rw [if_neg (by omega : ¬ 12 ≤ qr + 1)]
    rw [ih (qr + 1) script idx cb _ hidx (by omega)]
    have harg : qr + 1 + k = qr + (k + 1) := by omega
    rw [harg]
    congr 1
    show DetailsTrace.mk
        ((tr.requests ++ [(ids.drop idx).take cb]) ++ List.replicate k ((ids.drop idx).take cb))
        ((tr.queueWaits ++ [min (5 + (qr + 1) * 5) 60]) ++ queueWaitsFrom (qr + 1) k)
        tr.yields = _
    rw [List.append_assoc, List.append_assoc, List.singleton_append, List.singleton_append]
    rw [← List.replicate_succ, ← queueWaitsFrom_succ]

lemma iterDetailsGo_success_step (ids : List String) (bs maxIds : Nat)
    (items : List XmlItem) (rest : List ThingResp) (idx cb qr : Nat) (tr : DetailsTrace)
    (hidx : idx < ids.length) :
    iterDetailsGo ids bs maxIds (ThingResp.xml 200 items none :: rest) idx cb qr tr =
      iterDetailsGo ids bs maxIds rest (idx + ((ids.drop idx).take cb).length)
        (min bs maxIds) 0
        { tr with requests := tr.requests ++ [(ids.drop idx).take cb],
                  yields := tr.yields ++
                    [⟨(ids.drop idx).take cb, (parseItems items).1, (parseItems items).2⟩] } := by
  rw [iterDetailsGo]
  rw [if_neg (by omega : ¬ ids.length ≤ idx)]
  show (if items = [] ∧ sTrim ((none : Option String).getD "") ≠ "" ∧ _ then _ else _) = _
  rw [if_neg (fun h => h.2.1 rfl)]

lemma iterDetailsGo_queue_fail (ids : List String) (bs maxIds : Nat) (msg : String)
    (hmsg : sTrim msg ≠ "") (script : List ThingResp) (idx cb : Nat) (tr : DetailsTrace)
    (hidx : idx < ids.length) :
    iterDetailsGo ids bs maxIds (List.replicate 12 (queuedResp msg) ++ script) idx cb 0 tr =
      DetailsResult.stillPreparingError
        { tr with requests := tr.requests ++ List.replicate 12 ((ids.drop idx).take cb),
                  queueWaits := tr.queueWaits ++ queueWaitsFrom 0 12 } := by
  have h11 : List.replicate 12 (queuedResp msg) ++ script
      = List.replicate 11 (queuedResp msg) ++ (queuedResp msg :: script) := by
    rw [List.replicate_succ']
    simp
  rw [h11]
  rw [iterDetailsGo_queued_steps ids bs maxIds msg hmsg 11 0 _ idx cb tr hidx (by omega)]
  rw [iterDetailsGo]
  rw [if_neg (by omega : ¬ ids.length ≤ idx)]
  show (if ([] : List XmlItem) = [] ∧ sTrim ((some msg).getD "") ≠ "" ∧ _ then _ else _) = _
  rw [if_pos ⟨rfl, hmsg, Or.inl rfl⟩]
  rw [if_pos (by omega : 12 ≤ 0 + 11 + 1)]
  congr 1
  show DetailsTrace.mk
      (((tr.requests ++ List.replicate 11 ((ids.drop idx).take cb)) ++ [(ids.drop idx).take cb]))
      (((tr.queueWaits ++ queueWaitsFrom 0 11) ++ [min (5 + (0 + 11 + 1) * 5) 60]))
      tr.yields = _
  rw [List.append_assoc, List.append_assoc, ← List.replicate_succ']
  rfl

/-- C6: when the first chunk's thing request answers "still processing" `r`
times (`r ≤ 11`) before succeeding, the iterator re-issues exactly the first
chunk on each retry — so the `r + 1` requests so far are all chunk 1 and
chunk 2 has not been requested — sleeps the strictly increasing capped waits
`min(5 + 5k, 60)`, and then yields the successful parse of the response's
items, continuing with the rest of the id list; with 12 consecutive
still-processing responses it raises the still-preparing error instead. -/
theorem c6_details_queue_retry :
    (∀ (ids : List String) (bs : Nat) (msg : String) (items : List XmlItem)
        (rest : List ThingResp) (r : Nat), ids ≠ [] → sTrim msg ≠ "" → r ≤ 11 →
      iterDetailsBatches ids bs
          (List.replicate r (queuedResp msg) ++ ThingResp.xml 200 items none :: rest) =
        iterDetailsGo ids (max 1 (min bs bs)) bs rest
          (0 + (ids.take (max 1 (min bs bs))).length) (min (max 1 (min bs bs)) bs) 0
          ⟨List.replicate (r + 1) (ids.take (max 1 (min bs bs))), queueWaitsFrom 0 r,
           [⟨ids.take (max 1 (min bs bs)), (parseItems items).1, (parseItems items).2⟩]⟩) ∧
    (∀ r, r ≤ 11 → strictlyIncreasing (queueWaitsFrom 0 r) = true) ∧
    (∀ (ids : List String) (bs : Nat) (msg : String) (script : List ThingResp),
      ids ≠ [] → sTrim msg ≠ "" →
      iterDetailsBatches ids bs (List.replicate 12 (queuedResp msg) ++ script) =
        DetailsResult.stillPreparingError
          ⟨List.replicate 12 (ids.take (max 1 (min bs bs))), queueWaitsFrom 0 12, []⟩) := by
  refine ⟨?_, ?_, ?_⟩
  · intro ids bs msg items rest r hids hmsg hr
    have hidx : 0 < ids.length := List.length_pos.mpr hids
    unfold iterDetailsBatches
    rw [iterDetailsGo_queued_steps ids _ bs msg hmsg r 0 _ 0 _ _ hidx (by omega)]
    rw [iterDetailsGo_success_step ids _ bs items rest 0 _ _ _ hidx]
    congr 1
    show DetailsTrace.mk (([] ++ List.replicate r (ids.take _)) ++ [ids.take _])
        ([] ++ queueWaitsFrom 0 r) ([] ++ [⟨ids.take _, _, _⟩]) = _
    rw [List.nil_append, List.nil_append, List.nil_append, ← List.replicate_succ']
  · intro r hr
    interval_cases r <;> decide
  · intro ids bs msg script hids hmsg
    have hidx : 0 < ids.length := List.length_pos.mpr hids
    unfold iterDetailsBatches
    rw [iterDetailsGo_queue_fail ids _ bs msg hmsg script 0 _ _ hidx]
    rfl

/-- C6 witness: two still-processing answers for chunk 1 of `["1", "2"]`
(batch size 1), then success — three chunk-1 requests, waits 10 then 15,
one yield carrying the parse, and chunk 2 requested only afterwards. -/
theorem c6_witness :
    iterDetailsBatches ["1", "2"] 1
        (List.replicate 2 (queuedResp "Your request for this collection has been accepted and will be processed.") ++
          ThingResp.xml 200 [] none :: []) =
      iterDetailsGo ["1", "2"] (max 1 (min 1 1)) 1 []
        (0 + ((["1", "2"].take (max 1 (min 1 1))).length)) (min (max 1 (min 1 1)) 1) 0
        ⟨List.replicate 3 (["1", "2"].take (max 1 (min 1 1))), queueWaitsFrom 0 2,
         [⟨["1", "2"].take (max 1 (min 1 1)), (parseItems []).1, (parseItems []).2⟩]⟩ ∧
    strictlyIncreasing (queueWaitsFrom 0 2) = true :=
  ⟨c6_details_queue_retry.1 ["1", "2"] 1
      "Your request for this collection has been accepted and will be processed." [] [] 2
      (by decide) (by decide) (by decide),
   c6_details_queue_retry.2.1 2 (by decide)⟩

/-! ### C3 — chunked sync vs. one full sync (corrected)

Infrastructure: association-list facts, the membership characterisation of
the `OwnedGame` rows after the full sync's per-collection reconciliation, and
per-id normal forms for both pipelines. -/

lemma alookup_mem {κ α : Type} [DecidableEq κ] (m : List (κ × α)) (k : κ) (v : α)
    (h : alookup m k = some v) : (k, v) ∈ m := by
  induction m with
  | nil => exact Option.noConfusion h
  | cons p rest ih =>
    obtain ⟨k2, v2⟩ := p
    by_cases hk : k2 = k
    · subst hk
      rw [alookup, if_pos rfl, Option.some.injEq] at h
      subst h
      exact List.mem_cons_self _ _
    · rw [alookup, if_neg hk] at h
      exact List.mem_cons_of_mem _ (ih h)

lemma alookup_eq_some_of_mem_nodup {κ α : Type} [DecidableEq κ]
    (m : List (κ × α)) (k : κ) (v : α) (hnd : (m.map Prod.fst).Nodup)
    (h : (k, v) ∈ m) : alookup m k = some v := by
  induction m with
  | nil => exact absurd h (List.not_mem_nil _)
  | cons p rest ih =>
    obtain ⟨k2, v2⟩ := p
    rw [List.map_cons, List.nodup_cons] at hnd
    rcases List.mem_cons.mp h with h1 | h1
    · rw [Prod.mk.injEq] at h1
      rw [alookup, if_pos h1.1.symm, h1.2]
    · have hk : k2 ≠ k := by
        intro he
        subst he
        exact hnd.1 (List.mem_map.mpr ⟨(k2, v), h1, rfl⟩)
      rw [alookup, if_neg hk]
      exact ih hnd.2 h1

lemma normalizeCom_keys_sublist (com : List (String × List String)) :
    ((normalizeCom com).map Prod.fst).Sublist (com.map Prod.fst) := by
  induction com with
  | nil => exact List.Sublist.refl _
  | cons p rest ih =>
    obtain ⟨u, ids⟩ := p
    by_cases hu : u = ""
    · simp only [normalizeCom, List.filterMap_cons, hu, if_pos rfl]
      exact List.Sublist.cons _ ih
    · simp only [normalizeCom, List.filterMap_cons, if_neg hu]
      exact List.Sublist.cons₂ _ ih

lemma normalizeCom_keys_nodup (com : List (String × List String))
    (h : (com.map Prod.fst).Nodup) : ((normalizeCom com).map Prod.fst).Nodup :=
  (normalizeCom_keys_sublist com).nodup h

lemma ownersLookup_mem_iff (com : List (String × List String)) (g u : String) :
    u ∈ ownersLookup com g ↔ ∃ t, (u, t) ∈ normalizeCom com ∧ g ∈ t := by
  unfold ownersLookup
  rw [mem_sortedDedup]
  constructor
  · intro h
    rcases List.mem_map.mp h with ⟨⟨p1, p2⟩, hp, hu⟩
    simp only at hu
    subst hu
    rcases List.mem_filter.mp hp with ⟨hmem, hcond⟩
    exact ⟨p2, hmem, of_decide_eq_true hcond⟩
  · rintro ⟨t, ht, hg⟩
    exact List.mem_map.mpr ⟨(u, t), List.mem_filter.mpr ⟨ht, decide_eq_true hg⟩, rfl⟩

lemma ownersLookup_ne_nil_iff (com : List (String × List String)) (g : String) :
    ownersLookup com g ≠ [] ↔ ∃ u t, (u, t) ∈ normalizeCom com ∧ g ∈ t := by
  constructor
  · intro h
    rcases List.exists_mem_of_ne_nil _ h with ⟨u, hu⟩
    rcases (ownersLookup_mem_iff com g u).mp hu with ⟨t, ht, hg⟩
    exact ⟨u, t, ht, hg⟩
  · rintro ⟨u, t, ht, hg⟩ hnil
    have := (ownersLookup_mem_iff com g u).mpr ⟨t, ht, hg⟩
    rw [hnil] at this
    exact List.not_mem_nil u this

lemma reconcileCollection_links_mem (u : String) (t : List String) (s : Store)
    (u0 g0 : String) :
    ((u0, g0) ∈ (reconcileCollection u t s).links) ↔
      (if u0 = u then g0 ∈ t ∧ ((u0, g0) ∈ s.links ∨ (s.games g0).isSome)
       else (u0, g0) ∈ s.links) := by
  unfold reconcileCollection
  simp only [List.mem_append, List.mem_filter, List.mem_map, decide_eq_true_eq]
  by_cases hu : u0 = u
  · subst hu
    rw [if_pos rfl]
    constructor
    · rintro (⟨hmem, hcond⟩ | ⟨g2, hg2, heq⟩)
      · refine ⟨?_, Or.inl hmem⟩
        by_contra hgt
        exact hcond ⟨rfl, hgt⟩
      · rw [Prod.mk.injEq] at heq
        rw [heq.2] at hg2
        exact ⟨hg2.1, Or.inr hg2.2.1⟩
    · rintro ⟨hgt, hmem | hsome⟩
      · exact Or.inl ⟨hmem, fun hc => hc.2 hgt⟩
      · by_cases hlink : (u0, g0) ∈ s.links
        · exact Or.inl ⟨hlink, fun hc => hc.2 hgt⟩
        · exact Or.inr ⟨g0, ⟨hgt, hsome, hlink⟩, rfl⟩
  · rw [if_neg hu]
    constructor
    · rintro (⟨hmem, _⟩ | ⟨g2, _, heq⟩)
      · exact hmem
      · rw [Prod.mk.injEq] at heq
        exact absurd heq.1.symm hu
    · intro hmem
      exact Or.inl ⟨hmem, fun hc => hu hc.1⟩

lemma foldl_reconcileCollection_links_mem (es : List (String × List String))
    (hnd : (es.map Prod.fst).Nodup) :
    ∀ (s : Store) (u0 g0 : String),
      ((u0, g0) ∈ (es.foldl (fun st p => reconcileCollection p.1 p.2 st) s).links) ↔
        (match alookup es u0 with
         | some t => g0 ∈ t ∧ ((u0, g0) ∈ s.links ∨ (s.games g0).isSome)
         | none => (u0, g0) ∈ s.links) := by
  induction es with
  | nil =>
    intro s u0 g0
    rfl
  | cons p rest ih =>
    obtain ⟨v, t⟩ := p
    rw [List.map_cons, List.nodup_cons] at hnd
    intro s u0 g0
    rw [List.foldl_cons]
    rw [ih hnd.2 (reconcileCollection v t s) u0 g0]
    by_cases hu : u0 = v
    · subst hu
      have hrest : alookup rest u0 = none := by
        rw [alookup_eq_none_iff]
        simpa using hnd.1
      rw [hrest]
      show ((u0, g0) ∈ (reconcileCollection u0 t s).links) ↔ _
      rw [reconcileCollection_links_mem u0 t s u0 g0, if_pos rfl]
      show _ ↔ (match alookup ((u0, t) :: rest) u0 with
        | some t2 => g0 ∈ t2 ∧ ((u0, g0) ∈ s.links ∨ (s.games g0).isSome)
        | none => (u0, g0) ∈ s.links)
      rw [alookup, if_pos rfl]
    · have hcons : alookup ((v, t) :: rest) u0 = alookup rest u0 := by
        rw [alookup, if_neg (fun h => hu h.symm)]
      rw [hcons]
      have hstep : ∀ g1, ((u0, g1) ∈ (reconcileCollection v t s).links) ↔ (u0, g1) ∈ s.links := by
        intro g1
        rw [reconcileCollection_links_mem v t s u0 g1, if_neg hu]
      have hgames : (reconcileCollection v t s).games = s.games := reconcileCollection_games v t s
      rcases halk : alookup rest u0 with _ | t2
      · exact hstep g0
      · rw [hgames, hstep g0]

/-- The `Game` row either sync path leaves for an id that has both a games-map
entry and a details entry: base fields from the upsert (an update keeps the
unlisted fields of `old`), categories/families from the detail, ownership from
the collection-owned map. -/
def finalRow (info : GameInfo) (detail : Detail) (owners : List String)
    (oldOpt : Option GameRow) : GameRow :=
  let base := match oldOpt with
    | some old => fullUpdateRow info detail old
    | none => fullCreateRow info detail owners
  { base with
    categories := sortedDedup (detail.categories.filter (· ≠ ""))
    families := sortedDedup (detail.families.filter (· ≠ ""))
    owned := !owners.isEmpty
    ownedBy := owners }

/-- The recommendation row both replace-by-count loops store at `(g, c)`. -/
def recsOf (pc : List (String × List (Int × PCData))) (g : String) (c : Int) :
    Option RecRow :=
  match alookup ((alookup pc g).getD []) c with
  | some d => some (mkRecRow d)
  | none => none

lemma chunkUpdateRow_eq_full (info : GameInfo) (detail : Detail) (owners : List String)
    (old : GameRow) (hbr : detail.bggRank = none → info.bggRank = none) :
    chunkUpdateRow info (some detail) owners old =
      { fullUpdateRow info detail old with owned := !owners.isEmpty, ownedBy := owners } := by
  obtain ⟨y, w, wv, br, cats, fams⟩ := detail
  rcases br with _ | r
  · have h2 : info.bggRank = none := hbr rfl
    simp [chunkUpdateRow, fullUpdateRow, chunkBggRank, h2]
  · rfl

lemma chunkCreateRow_eq_full (info : GameInfo) (detail : Detail) (owners : List String)
    (hbr : detail.bggRank = none → info.bggRank = none) :
    chunkCreateRow info (some detail) owners = fullCreateRow info detail owners := by
  obtain ⟨y, w, wv, br, cats, fams⟩ := detail
  rcases br with _ | r
  · have h2 : info.bggRank = none := hbr rfl
    simp [chunkCreateRow, fullCreateRow, chunkBggRank, h2]
  · rfl

lemma sync_refresh_chunk_ids_eq (b : List String) (gm : List (String × GameInfo))
    (dm : List (String × Detail))
    (hb : ∀ g ∈ b, (alookup gm g).isSome) :
    b.filter (fun g => decide ((alookup gm g).isSome ∨ (alookup dm g).isSome)) = b :=
  List.filter_eq_self.mpr (fun g hg => decide_eq_true (Or.inl (hb g hg)))

lemma sync_refresh_chunk_eq_self (b : List String) (gm : List (String × GameInfo))
    (dm : List (String × Detail)) (pc : List (String × List (Int × PCData)))
    (com : List (String × List String)) (s : Store)
    (hnil : b.filter (fun g => decide ((alookup gm g).isSome ∨ (alookup dm g).isSome)) = []) :
    sync_refresh_chunk b gm dm pc com s = s := by
  show (if b.filter (fun g => decide ((alookup gm g).isSome ∨ (alookup dm g).isSome)) = []
      then s
      else reconcileLinksChunk
        (b.filter (fun g => decide ((alookup gm g).isSome ∨ (alookup dm g).isSome))) com
        (replaceRecsChunk
          (b.filter (fun g => decide ((alookup gm g).isSome ∨ (alookup dm g).isSome))) dm pc
          (setRelationsChunk
            (b.filter (fun g => decide ((alookup gm g).isSome ∨ (alookup dm g).isSome))) dm
            (upsertGamesChunk
              (b.filter (fun g => decide ((alookup gm g).isSome ∨ (alookup dm g).isSome)))
              gm dm com s)))) = s
  rw [if_pos hnil]

lemma sync_refresh_chunk_eq (b : List String) (gm : List (String × GameInfo))
    (dm : List (String × Detail)) (pc : List (String × List (Int × PCData)))
    (com : List (String × List String)) (s : Store)
    (hne : b.filter (fun g => decide ((alookup gm g).isSome ∨ (alookup dm g).isSome)) ≠ []) :
    sync_refresh_chunk b gm dm pc com s =
      reconcileLinksChunk
        (b.filter (fun g => decide ((alookup gm g).isSome ∨ (alookup dm g).isSome))) com
        (replaceRecsChunk
          (b.filter (fun g => decide ((alookup gm g).isSome ∨ (alookup dm g).isSome))) dm pc
          (setRelationsChunk
            (b.filter (fun g => decide ((alookup gm g).isSome ∨ (alookup dm g).isSome))) dm
            (upsertGamesChunk
              (b.filter (fun g => decide ((alookup gm g).isSome ∨ (alookup dm g).isSome)))
              gm dm com s))) := by
  show (if b.filter (fun g => decide ((alookup gm g).isSome ∨ (alookup dm g).isSome)) = []
      then s
      else reconcileLinksChunk
        (b.filter (fun g => decide ((alookup gm g).isSome ∨ (alookup dm g).isSome))) com
        (replaceRecsChunk
          (b.filter (fun g => decide ((alookup gm g).isSome ∨ (alookup dm g).isSome))) dm pc
          (setRelationsChunk
            (b.filter (fun g => decide ((alookup gm g).isSome ∨ (alookup dm g).isSome))) dm
            (upsertGamesChunk
              (b.filter (fun g => decide ((alookup gm g).isSome ∨ (alookup dm g).isSome)))
              gm dm com s)))) = _
  rw [if_neg hne]

lemma sync_refresh_chunk_frame (b : List String) (gm : List (String × GameInfo))
    (dm : List (String × Detail)) (pc : List (String × List (Int × PCData)))
    (com : List (String × List String)) (s : Store) (g : String) (hg : g ∉ b) :
    (sync_refresh_chunk b gm dm pc com s).games g = s.games g ∧
      ∀ c, (sync_refresh_chunk b gm dm pc com s).recs g c = s.recs g c := by
  by_cases hnil :
      b.filter (fun g2 => decide ((alookup gm g2).isSome ∨ (alookup dm g2).isSome)) = []
  · rw [sync_refresh_chunk_eq_self b gm dm pc com s hnil]
    exact ⟨rfl, fun c => rfl⟩
  · rw [sync_refresh_chunk_eq b gm dm pc com s hnil]
    have hgf : g ∉ b.filter (fun g2 => decide ((alookup gm g2).isSome ∨ (alookup dm g2).isSome)) :=
      fun h => hg (List.mem_of_mem_filter h)
    constructor
    · rw [reconcileLinksChunk_games, replaceRecsChunk_games, setRelationsChunk_games_eval,
        if_neg hgf, upsertGamesChunk_games_eval, if_neg hgf]
    · intro c
      rw [reconcileLinksChunk_recs, replaceRecsChunk_recs_eval,
        if_neg (fun h => hgf h.1), setRelationsChunk_recs, upsertGamesChunk_recs]

lemma setRelationsChunk_games_some (ids : List String) (dm : List (String × Detail))
    (s : Store) (g : String) (detail : Detail) (hg : g ∈ ids)
    (hdet : alookup dm g = some detail) :
    (setRelationsChunk ids dm s).games g =
      match s.games g with
      | some row => some { row with
          categories := sortedDedup (detail.categories.filter (· ≠ ""))
          families := sortedDedup (detail.families.filter (· ≠ "")) }
      | none => none := by
  rw [setRelationsChunk_games_eval, if_pos hg, hdet]

lemma upsertGamesChunk_games_some (ids : List String) (gm : List (String × GameInfo))
    (dm : List (String × Detail)) (com : List (String × List String)) (s : Store)
    (g : String) (info : GameInfo) (detail : Detail) (hg : g ∈ ids)
    (hinfo : alookup gm g = some info) (hdet : alookup dm g = some detail) :
    (upsertGamesChunk ids gm dm com s).games g =
      match s.games g with
      | some old => some (chunkUpdateRow info (some detail) (ownersLookup com g) old)
      | none => some (chunkCreateRow info (some detail) (ownersLookup com g)) := by
  rw [upsertGamesChunk_games_eval, if_pos hg, hinfo, hdet]
  rfl

lemma sync_refresh_chunk_mem (b : List String) (gm : List (String × GameInfo))
    (dm : List (String × Detail)) (pc : List (String × List (Int × PCData)))
    (com : List (String × List String)) (s : Store) (g : String)
    (info : GameInfo) (detail : Detail)
    (hb : ∀ g2 ∈ b, (alookup gm g2).isSome)
    (hg : g ∈ b) (hinfo : alookup gm g = some info) (hdet : alookup dm g = some detail)
    (hbr : detail.bggRank = none → info.bggRank = none) :
    (sync_refresh_chunk b gm dm pc com s).games g =
        some (finalRow info detail (ownersLookup com g) (s.games g)) ∧
      ∀ c, (sync_refresh_chunk b gm dm pc com s).recs g c = recsOf pc g c := by
  have hids := sync_refresh_chunk_ids_eq b gm dm hb
  have hbne : b ≠ [] := fun h => by subst h; exact List.not_mem_nil g hg
  have hne : b.filter (fun g2 => decide ((alookup gm g2).isSome ∨ (alookup dm g2).isSome)) ≠ [] := by
    intro h
    rw [hids] at h
    exact hbne h
  rw [sync_refresh_chunk_eq b gm dm pc com s hne, hids]
  have hs2 : (setRelationsChunk b dm (upsertGamesChunk b gm dm com s)).games g =
      match s.games g with
      | some old => some { chunkUpdateRow info (some detail) (ownersLookup com g) old with
          categories := sortedDedup (detail.categories.filter (· ≠ ""))
          families := sortedDedup (detail.families.filter (· ≠ "")) }
      | none => some { chunkCreateRow info (some detail) (ownersLookup com g) with
          categories := sortedDedup (detail.categories.filter (· ≠ ""))
          families := sortedDedup (detail.families.filter (· ≠ "")) } := by
    rw [setRelationsChunk_games_some b dm _ g detail hg hdet,
      upsertGamesChunk_games_some b gm dm com s g info detail hg hinfo hdet]
    rcases s.games g with _ | old <;> rfl
  constructor
  · rw [reconcileLinksChunk_games, replaceRecsChunk_games, hs2]
    rcases s.games g with _ | old
    · show some { chunkCreateRow info (some detail) (ownersLookup com g) with
          categories := sortedDedup (detail.categories.filter (· ≠ ""))
          families := sortedDedup (detail.families.filter (· ≠ "")) } = _
      rw [chunkCreateRow_eq_full info detail _ hbr]
      rfl
    · show some { chunkUpdateRow info (some detail) (ownersLookup com g) old with
          categories := sortedDedup (detail.categories.filter (· ≠ ""))
          families := sortedDedup (detail.families.filter (· ≠ "")) } = _
      rw [chunkUpdateRow_eq_full info detail _ old hbr]
      rfl
  · intro c
    have hs2some : ((setRelationsChunk b dm (upsertGamesChunk b gm dm com s)).games g).isSome := by
      rw [hs2]
      rcases s.games g with _ | old <;> rfl
    have hdsome : (alookup dm g).isSome := by rw [hdet]; rfl
    rw [reconcileLinksChunk_recs, replaceRecsChunk_recs_eval,
      if_pos ⟨hg, hdsome, hs2some⟩]
    rfl

lemma foldl_chunks_frame (batches : List (List String)) (gm : List (String × GameInfo))
    (dm : List (String × Detail)) (pc : List (String × List (Int × PCData)))
    (com : List (String × List String)) :
    ∀ (s : Store) (g : String), g ∉ batches.flatten →
      ((batches.foldl (fun st b => sync_refresh_chunk b gm dm pc com st) s).games g = s.games g ∧
        ∀ c, (batches.foldl (fun st b => sync_refresh_chunk b gm dm pc com st) s).recs g c =
          s.recs g c) := by
  induction batches with
  | nil => intro s g _; exact ⟨rfl, fun c => rfl⟩
  | cons b bs ih =>
    intro s g hg
    rw [List.flatten_cons, List.mem_append] at hg
    push_neg at hg
    rw [List.foldl_cons]
    obtain ⟨h1, h2⟩ := sync_refresh_chunk_frame b gm dm pc com s g hg.1
    obtain ⟨h3, h4⟩ := ih (sync_refresh_chunk b gm dm pc com s) g hg.2
    exact ⟨h3.trans h1, fun c => (h4 c).trans (h2 c)⟩

lemma foldl_chunks_mem (gm : List (String × GameInfo)) (dm : List (String × Detail))
    (pc : List (String × List (Int × PCData))) (com : List (String × List String)) :
    ∀ batches : List (List String),
      (∀ g ∈ batches.flatten, (alookup gm g).isSome) →
      (∀ g ∈ batches.flatten,
        ((alookup dm g).getD emptyDetail).bggRank = none →
          ((alookup gm g).getD emptyInfo).bggRank = none) →
      batches.flatten.Nodup →
      ∀ (s : Store) (g : String) (info : GameInfo) (detail : Detail),
        g ∈ batches.flatten → alookup gm g = some info → alookup dm g = some detail →
        ((batches.foldl (fun st b => sync_refresh_chunk b gm dm pc com st) s).games g =
            some (finalRow info detail (ownersLookup com g) (s.games g)) ∧
          ∀ c, (batches.foldl (fun st b => sync_refresh_chunk b gm dm pc com st) s).recs g c =
            recsOf pc g c) := by
  intro batches
  induction batches with
  | nil =>
    intro _ _ _ s g info detail hg
    exact absurd hg (List.not_mem_nil g)
  | cons b bs ih =>
    intro hkeys hbrs hnd s g info detail hg hinfo hdet
    rw [List.flatten_cons] at hkeys hbrs hnd hg
    rw [List.foldl_cons]
    obtain ⟨hnd1, hnd2, hdisj⟩ := List.nodup_append.mp hnd
    rcases List.mem_append.mp hg with hb | hbs
    · have hbsub : ∀ g2 ∈ b, (alookup gm g2).isSome := fun g2 h2 =>
        hkeys g2 (List.mem_append.mpr (Or.inl h2))
      have hbr2 : detail.bggRank = none → info.bggRank = none := by
        have h0 := hbrs g (List.mem_append.mpr (Or.inl hb))
        rw [hdet, hinfo] at h0
        simpa using h0
      obtain ⟨h1, h2⟩ :=
        sync_refresh_chunk_mem b gm dm pc com s g info detail hbsub hb hinfo hdet hbr2
      have hnotbs : g ∉ bs.flatten := fun h => hdisj hb h
      obtain ⟨h3, h4⟩ :=
        foldl_chunks_frame bs gm dm pc com (sync_refresh_chunk b gm dm pc com s) g hnotbs
      exact ⟨h3.trans h1, fun c => (h4 c).trans (h2 c)⟩
    · have hnotb : g ∉ b := fun h => hdisj h hbs
      obtain ⟨h1, h2⟩ := sync_refresh_chunk_frame b gm dm pc com s g hnotb
      obtain ⟨h3, h4⟩ := ih
        (fun g2 h2a => hkeys g2 (List.mem_append.mpr (Or.inr h2a)))
        (fun g2 h2a => hbrs g2 (List.mem_append.mpr (Or.inr h2a)))
        hnd2 (sync_refresh_chunk b gm dm pc com s) g info detail hbs hinfo hdet
      rw [h1] at h3
      exact ⟨h3, h4⟩

lemma mem_linkOwners (links : List (String × String)) (g a : String) :
    a ∈ ((links.filter (fun p => decide (p.2 = g))).map Prod.fst) ↔ (a, g) ∈ links := by
  constructor
  · intro h
    rcases List.mem_map.mp h with ⟨⟨p1, p2⟩, hp, ha⟩
    simp only at ha
    subst ha
    rcases List.mem_filter.mp hp with ⟨hmem, hcond⟩
    rw [decide_eq_true_eq] at hcond
    simp only at hcond
    subst hcond
    exact hmem
  · intro h
    exact List.mem_map.mpr ⟨(a, g), List.mem_filter.mpr ⟨h, decide_eq_true rfl⟩, rfl⟩

lemma ownersOfLinks_reconcileFull (com : List (String × List String)) (s : Store)
    (g : String)
    (H4 : ∀ p ∈ s.links, p.1 ∈ (normalizeCom com).map Prod.fst)
    (H5 : ((normalizeCom com).map Prod.fst).Nodup)
    (hg : (s.games g).isSome) :
    ownersOfLinks (reconcileCollectionsFull com s).links g = ownersLookup com g := by
  unfold ownersOfLinks ownersLookup
  apply sortedDedup_congr
  intro a
  rw [mem_linkOwners]
  have hpre2 : a ∈ (((normalizeCom com).filter (fun p => decide (g ∈ p.2))).map Prod.fst) ↔
      ∃ t, (a, t) ∈ normalizeCom com ∧ g ∈ t := by
    rw [← mem_sortedDedup]
    exact ownersLookup_mem_iff com g a
  rw [hpre2]
  unfold reconcileCollectionsFull
  rw [foldl_reconcileCollection_links_mem (normalizeCom com) H5 s a g]
  rcases halk : alookup (normalizeCom com) a with _ | t
  · constructor
    · intro h
      have ha := H4 (a, g) h
      have hsome := (alookup_isSome_iff (normalizeCom com) a).mpr ha
      rw [halk] at hsome
      simp at hsome
    · rintro ⟨t, ht, _⟩
      have h2 := alookup_eq_some_of_mem_nodup (normalizeCom com) a t H5 ht
      rw [halk] at h2
      exact Option.noConfusion h2
  · constructor
    · rintro ⟨hgt, _⟩
      exact ⟨t, alookup_mem _ _ _ halk, hgt⟩
    · rintro ⟨t2, ht2, hgt2⟩
      have h2 := alookup_eq_some_of_mem_nodup (normalizeCom com) a t2 H5 ht2
      rw [halk, Option.some.injEq] at h2
      subst h2
      exact ⟨hgt2, Or.inr hg⟩

lemma ensure_collections_games (us : List String) (s : Store) :
    (ensure_collections us s).games = s.games := rfl

lemma ensure_collections_recs (us : List String) (s : Store) :
    (ensure_collections us s).recs = s.recs := rfl

lemma full_upsert_setRel_games_some (gm : List (String × GameInfo))
    (dm : List (String × Detail)) (com : List (String × List String)) (s : Store)
    (g : String) (info : GameInfo) (detail : Detail)
    (hgd : g ∈ gm.map Prod.fst)
    (hinfo : alookup gm g = some info) (hdet : alookup dm g = some detail) :
    (setRelationsFull (gm.map Prod.fst) dm (upsertGamesFull gm dm com s)).games g =
      some (match s.games g with
        | some old => { fullUpdateRow info detail old with
            categories := sortedDedup (detail.categories.filter (· ≠ ""))
            families := sortedDedup (detail.families.filter (· ≠ "")) }
        | none => { fullCreateRow info detail (ownersLookup com g) with
            categories := sortedDedup (detail.categories.filter (· ≠ ""))
            families := sortedDedup (detail.families.filter (· ≠ "")) }) := by
  rw [setRelationsFull_games_eval, if_pos hgd, upsertGamesFull_games_eval, hinfo, hdet]
  rcases s.games g with _ | old <;> rfl

lemma sync_catalog_mem (gm : List (String × GameInfo)) (dm : List (String × Detail))
    (pc : List (String × List (Int × PCData))) (com : List (String × List String))
    (s : Store) (g : String) (info : GameInfo) (detail : Detail)
    (hinfo : alookup gm g = some info) (hdet : alookup dm g = some detail)
    (H4 : ∀ p ∈ s.links, p.1 ∈ (normalizeCom com).map Prod.fst)
    (H5 : ((normalizeCom com).map Prod.fst).Nodup) :
    (sync_catalog gm dm pc com true s).games g =
        some (finalRow info detail (ownersLookup com g) (s.games g)) ∧
      ∀ c, (sync_catalog gm dm pc com true s).recs g c = recsOf pc g c := by
  have hgd : g ∈ gm.map Prod.fst := (alookup_isSome_iff gm g).mp (by rw [hinfo]; rfl)
  have key : sync_catalog gm dm pc com true s =
      recomputeOwnedFull (gm.map Prod.fst) com
        (reconcileCollectionsFull com
          (replaceRecsFull (gm.map Prod.fst) pc
            (setRelationsFull (gm.map Prod.fst) dm
              (upsertGamesFull gm dm com (pruneOutside (gm.map Prod.fst) s))))) := rfl
  have hupg : (setRelationsFull (gm.map Prod.fst) dm
      (upsertGamesFull gm dm com (pruneOutside (gm.map Prod.fst) s))).games g =
      some (match s.games g with
        | some old => { fullUpdateRow info detail old with
            categories := sortedDedup (detail.categories.filter (· ≠ ""))
            families := sortedDedup (detail.families.filter (· ≠ "")) }
        | none => { fullCreateRow info detail (ownersLookup com g) with
            categories := sortedDedup (detail.categories.filter (· ≠ ""))
            families := sortedDedup (detail.families.filter (· ≠ "")) }) := by
    rw [full_upsert_setRel_games_some gm dm com _ g info detail hgd hinfo hdet,
      pruneOutside_games_eval, if_pos hgd]
  have hlinks4 : (replaceRecsFull (gm.map Prod.fst) pc
      (setRelationsFull (gm.map Prod.fst) dm
        (upsertGamesFull gm dm com (pruneOutside (gm.map Prod.fst) s)))).links =
      s.links.filter (fun p => decide (p.2 ∈ gm.map Prod.fst)) := rfl
  have hg4 : ((replaceRecsFull (gm.map Prod.fst) pc
      (setRelationsFull (gm.map Prod.fst) dm
        (upsertGamesFull gm dm com (pruneOutside (gm.map Prod.fst) s)))).games g).isSome := by
    rw [replaceRecsFull_games, hupg]
    rfl
  have H4b : ∀ p ∈ (replaceRecsFull (gm.map Prod.fst) pc
      (setRelationsFull (gm.map Prod.fst) dm
        (upsertGamesFull gm dm com (pruneOutside (gm.map Prod.fst) s)))).links,
      p.1 ∈ (normalizeCom com).map Prod.fst := by
    intro p hp
    rw [hlinks4] at hp
    exact H4 p (List.mem_of_mem_filter hp)
  have howners : ownersOfLinks (reconcileCollectionsFull com
      (replaceRecsFull (gm.map Prod.fst) pc
        (setRelationsFull (gm.map Prod.fst) dm
          (upsertGamesFull gm dm com (pruneOutside (gm.map Prod.fst) s))))).links g =
      ownersLookup com g :=
    ownersOfLinks_reconcileFull com _ g H4b H5 hg4
  constructor
  · rw [key, recomputeOwnedFull_games_eval, if_pos (Or.inl hgd),
      reconcileCollectionsFull_games, replaceRecsFull_games, hupg, howners]
    rcases s.games g with _ | old <;> rfl
  · intro c
    have hs3 : ((setRelationsFull (gm.map Prod.fst) dm
        (upsertGamesFull gm dm com (pruneOutside (gm.map Prod.fst) s))).games g).isSome := by
      rw [hupg]
      rfl
    rw [key, recomputeOwnedFull_recs, reconcileCollectionsFull_recs, replaceRecsFull_recs_eval,
      if_pos ⟨hgd, hs3⟩]
    rfl

lemma sync_catalog_none (gm : List (String × GameInfo)) (dm : List (String × Detail))
    (pc : List (String × List (Int × PCData))) (com : List (String × List String))
    (s : Store) (g : String) (hnone : alookup gm g = none) :
    (sync_catalog gm dm pc com true s).games g = none ∧
      ∀ c, (sync_catalog gm dm pc com true s).recs g c = none := by
  have hgd : g ∉ gm.map Prod.fst := (alookup_eq_none_iff gm g).mp hnone
  have key : sync_catalog gm dm pc com true s =
      recomputeOwnedFull (gm.map Prod.fst) com
        (reconcileCollectionsFull com
          (replaceRecsFull (gm.map Prod.fst) pc
            (setRelationsFull (gm.map Prod.fst) dm
              (upsertGamesFull gm dm com (pruneOutside (gm.map Prod.fst) s))))) := rfl
  have hpg : (pruneOutside (gm.map Prod.fst) s).games g = none := by
    rw [pruneOutside_games_eval, if_neg hgd]
  have hupg : (setRelationsFull (gm.map Prod.fst) dm
      (upsertGamesFull gm dm com (pruneOutside (gm.map Prod.fst) s))).games g = none := by
    rw [setRelationsFull_games_eval, if_neg hgd, upsertGamesFull_games_eval, hnone, hpg]
  constructor
  · rw [key, recomputeOwnedFull_games_eval, reconcileCollectionsFull_games,
      replaceRecsFull_games, hupg]
    split <;> rfl
  · intro c
    rw [key, recomputeOwnedFull_recs, reconcileCollectionsFull_recs, replaceRecsFull_recs_eval,
      if_neg (fun h => hgd h.1), setRelationsFull_recs, upsertGamesFull_recs,
      pruneOutside_recs_eval, if_neg hgd]

def emptyStore : Store := ⟨fun _ => none, fun _ _ => none, [], []⟩

/-- A games-map entry whose rank comes only from the rank page, with no rank in
the details. -/
def cexInfo : GameInfo :=
  { title := some "Gamma", type := none, avgRating := none, numVoters := none,
    bggRank := some 3 }

/-- **C3 (counterexample).** The claimed unconditional equivalence fails: for
the single id `"5"` with games-map rank 3 and a details entry without a rank,
the chunked path's `bgg_rank` falls back to the games-map value while the full
sync writes the details value `None`, so the final `Game` rows differ. -/
theorem c3_counterexample :
    (chunked_refresh [["5"]] [("5", cexInfo)] [("5", emptyDetail)] [] []
        emptyStore).games "5" ≠
      (sync_catalog [("5", cexInfo)] [("5", emptyDetail)] [] [] true
        emptyStore).games "5" := by
  decide

/-- **C3.** Chunk-vs-whole equivalence, corrected: if the batches exactly
partition the games-map keys (`H1`, `H6`), every key has a details entry
(`H2`), no key relies on the chunk path's games-map rank fallback (`H3`), all
pre-existing ownership links belong to usernames of the (normalised)
collection-owned map (`H4`), and collection usernames are not repeated (`H5`),
then running the chunked refresh pipeline (ensure collections, then
`_sync_refresh_chunk` per batch, then the final prune) leaves the `Game` and
`PlayerCountRecommendation` tables exactly as one full `_sync_catalog` call
with pruning over the same combined inputs. -/
theorem c3_chunk_vs_full (batches : List (List String))
    (gm : List (String × GameInfo)) (dm : List (String × Detail))
    (pc : List (String × List (Int × PCData)))
    (com : List (String × List String)) (s : Store)
    (H1 : batches.flatten = gm.map Prod.fst)
    (H2 : ∀ g ∈ gm.map Prod.fst, (alookup dm g).isSome)
    (H3 : ∀ g ∈ gm.map Prod.fst,
      ((alookup dm g).getD emptyDetail).bggRank = none →
        ((alookup gm g).getD emptyInfo).bggRank = none)
    (H4 : ∀ p ∈ s.links, p.1 ∈ (normalizeCom com).map Prod.fst)
    (H5 : (com.map Prod.fst).Nodup)
    (H6 : (gm.map Prod.fst).Nodup) :
    (chunked_refresh batches gm dm pc com s).games =
        (sync_catalog gm dm pc com true s).games ∧
      (chunked_refresh batches gm dm pc com s).recs =
        (sync_catalog gm dm pc com true s).recs := by
  have H5n : ((normalizeCom com).map Prod.fst).Nodup := normalizeCom_keys_nodup com H5
  have hkeys : ∀ g ∈ batches.flatten, (alookup gm g).isSome := by
    intro g hg
    rw [H1] at hg
    exact (alookup_isSome_iff gm g).mpr hg
  have hbrs : ∀ g ∈ batches.flatten,
      ((alookup dm g).getD emptyDetail).bggRank = none →
        ((alookup gm g).getD emptyInfo).bggRank = none := by
    intro g hg
    rw [H1] at hg
    exact H3 g hg
  have hnd : batches.flatten.Nodup := by rw [H1]; exact H6
  have keyc : chunked_refresh batches gm dm pc com s =
      pruneOutside (gm.map Prod.fst)
        (batches.foldl (fun st b => sync_refresh_chunk b gm dm pc com st)
          (ensure_collections (com.map Prod.fst) s)) := rfl
  constructor
  · funext g
    by_cases hgd : g ∈ gm.map Prod.fst
    · have hio : (alookup gm g).isSome := (alookup_isSome_iff gm g).mpr hgd
      rcases hi : alookup gm g with _ | info
      · rw [hi] at hio
        simp at hio
      rcases hd : alookup dm g with _ | detail
      · have hds := H2 g hgd
        rw [hd] at hds
        simp at hds
      have hgf : g ∈ batches.flatten := by rw [H1]; exact hgd
      obtain ⟨hcg, _⟩ := foldl_chunks_mem gm dm pc com batches hkeys hbrs hnd
        (ensure_collections (com.map Prod.fst) s) g info detail hgf hi hd
      obtain ⟨hfg, _⟩ := sync_catalog_mem gm dm pc com s g info detail hi hd H4 H5n
      rw [keyc, pruneOutside_games_eval, if_pos hgd, hcg, ensure_collections_games, hfg]
    · have hnone : alookup gm g = none := (alookup_eq_none_iff gm g).mpr hgd
      obtain ⟨hfg, _⟩ := sync_catalog_none gm dm pc com s g hnone
      rw [keyc, pruneOutside_games_eval, if_neg hgd, hfg]
  · funext g c
    by_cases hgd : g ∈ gm.map Prod.fst
    · have hio : (alookup gm g).isSome := (alookup_isSome_iff gm g).mpr hgd
      rcases hi : alookup gm g with _ | info
      · rw [hi] at hio
        simp at hio
      rcases hd : alookup dm g with _ | detail
      · have hds := H2 g hgd
        rw [hd] at hds
        simp at hds
      have hgf : g ∈ batches.flatten := by rw [H1]; exact hgd
      obtain ⟨_, hcr⟩ := foldl_chunks_mem gm dm pc com batches hkeys hbrs hnd
        (ensure_collections (com.map Prod.fst) s) g info detail hgf hi hd
      obtain ⟨_, hfr⟩ := sync_catalog_mem gm dm pc com s g info detail hi hd H4 H5n
      rw [keyc, pruneOutside_recs_eval, if_pos hgd, hcr c, hfr c]
    · have hnone : alookup gm g = none := (alookup_eq_none_iff gm g).mpr hgd
      obtain ⟨_, hfr⟩ := sync_catalog_none gm dm pc com s g hnone
      rw [keyc, pruneOutside_recs_eval, if_neg hgd, hfr c]

def wInfo1 : GameInfo :=
  { title := some "Alpha", type := some "boardgame", avgRating := some 7,
    numVoters := some 100, bggRank := some 10 }

def wInfo2 : GameInfo :=
  { title := some "Beta", type := some "boardgameexpansion", avgRating := none,
    numVoters := none, bggRank := none }

def wDet1 : Detail :=
  { year := some "2001", weight := some 2, weightVotes := some 40, bggRank := some 4,
    categories := ["Economic", ""], families := ["Strategy"] }

def wDet2 : Detail :=
  { year := none, weight := none, weightVotes := none, bggRank := none,
    categories := [], families := [] }

def wOldRow : GameRow :=
  { title := "Old", type := "Base Game", year := some "1990", avgRating := none,
    numVoters := none, weight := none, weightVotes := none, bggRank := none,
    owned := true, ownedBy := ["alice"], categories := [], families := [] }

def wStoreC3 : Store :=
  ⟨fun g => if g = "1" then some wOldRow else none, fun _ _ => none,
    ["alice"], [("alice", "1")]⟩

def wGM : List (String × GameInfo) := [("1", wInfo1), ("2", wInfo2)]

def wDM : List (String × Detail) := [("1", wDet1), ("2", wDet2)]

def wPC : List (String × List (Int × PCData)) := [("1", [(2, exPC2)])]

def wCom : List (String × List String) := [("alice", ["1"])]

/-- **C3 (witness).** The corrected equivalence instantiated on a two-id,
two-batch refresh over a store holding one of the games and one ownership
link. -/
theorem c3_witness :
    (chunked_refresh [["1"], ["2"]] wGM wDM wPC wCom wStoreC3).games =
        (sync_catalog wGM wDM wPC wCom true wStoreC3).games ∧
      (chunked_refresh [["1"], ["2"]] wGM wDM wPC wCom wStoreC3).recs =
        (sync_catalog wGM wDM wPC wCom true wStoreC3).recs :=
  c3_chunk_vs_full [["1"], ["2"]] wGM wDM wPC wCom wStoreC3 (by decide) (by decide)
    (by decide) (by decide) (by decide) (by decide)

end Bgg
